import Mathlib

/-!
Verification development for the Tracee ingestion and behavioral-analytics
service (`src/spr/mongo/main.py`).  The Python endpoints `upload_tracee`,
`get_stats` and `get_specific_data` are shallowly embedded as executable Lean
functions over a pure model of the document store: a database is a list of
named collections, a collection is a list of JSON documents, and the MongoDB
operations used by the source (`$match`, `$unwind`, `$group`, `$sort`,
`skip`/`limit`, `$elemMatch`) are modelled by list functions following
MongoDB's documented semantics.  Python-level behaviors the source relies on
(strict UTF-8 decoding of each 1 MiB chunk, truthiness, the `in` operator,
`dict` insertion-order and overwrite semantics) are modelled explicitly.
-/

/-- Strings are modelled as lists of characters (Python `str`). -/
abbrev Str := List Char

/-- Python `needle in hay` for strings: substring containment. -/
def containsSub (needle hay : Str) : Bool :=
  (hay.tails).any (fun t => needle.isPrefixOf t)

/-- Python `str.lower` (ASCII case folding, which suffices for filenames). -/
def strLower (s : Str) : Str := s.map Char.toLower

/-- JSON values as produced by `json.loads`: the dynamic event/argument
values of the data model.  Numbers are modelled as integers (every numeric
field in the service's documents and claims is an integer; floats are not
exercised).  Objects keep their key/value pairs in insertion order, like
Python dicts. -/
inductive Json where
  | null
  | bool (b : Bool)
  | num (n : Int)
  | str (s : Str)
  | arr (elems : List Json)
  | obj (fields : List (Str × Json))

mutual

/-- Decidable equality on `Json` (handwritten: the deriving handler does not
support this nested inductive). -/
def Json.jdecEq : (a b : Json) → Decidable (a = b)
  | .null, .null => .isTrue rfl
  | .bool a, .bool b =>
    match decEq a b with
    | .isTrue h => .isTrue (by rw [h])
    | .isFalse h => .isFalse (by intro hc; injection hc; exact h (by assumption))
  | .num a, .num b =>
    match decEq a b with
    | .isTrue h => .isTrue (by rw [h])
    | .isFalse h => .isFalse (by intro hc; injection hc; exact h (by assumption))
  | .str a, .str b =>
    match decEq a b with
    | .isTrue h => .isTrue (by rw [h])
    | .isFalse h => .isFalse (by intro hc; injection hc; exact h (by assumption))
  | .arr xs, .arr ys =>
    match Json.jdecEqList xs ys with
    | .isTrue h => .isTrue (by rw [h])
    | .isFalse h => .isFalse (by intro hc; injection hc; exact h (by assumption))
  | .obj fs, .obj gs =>
    match Json.jdecEqFields fs gs with
    | .isTrue h => .isTrue (by rw [h])
    | .isFalse h => .isFalse (by intro hc; injection hc; exact h (by assumption))
  | .null, .bool _ => .isFalse (by intro h; exact Json.noConfusion h)
  | .null, .num _ => .isFalse (by intro h; exact Json.noConfusion h)
  | .null, .str _ => .isFalse (by intro h; exact Json.noConfusion h)
  | .null, .arr _ => .isFalse (by intro h; exact Json.noConfusion h)
  | .null, .obj _ => .isFalse (by intro h; exact Json.noConfusion h)
  | .bool _, .null => .isFalse (by intro h; exact Json.noConfusion h)
  | .bool _, .num _ => .isFalse (by intro h; exact Json.noConfusion h)
  | .bool _, .str _ => .isFalse (by intro h; exact Json.noConfusion h)
  | .bool _, .arr _ => .isFalse (by intro h; exact Json.noConfusion h)
  | .bool _, .obj _ => .isFalse (by intro h; exact Json.noConfusion h)
  | .num _, .null => .isFalse (by intro h; exact Json.noConfusion h)
  | .num _, .bool _ => .isFalse (by intro h; exact Json.noConfusion h)
  | .num _, .str _ => .isFalse (by intro h; exact Json.noConfusion h)
  | .num _, .arr _ => .isFalse (by intro h; exact Json.noConfusion h)
  | .num _, .obj _ => .isFalse (by intro h; exact Json.noConfusion h)
  | .str _, .null => .isFalse (by intro h; exact Json.noConfusion h)
  | .str _, .bool _ => .isFalse (by intro h; exact Json.noConfusion h)
  | .str _, .num _ => .isFalse (by intro h; exact Json.noConfusion h)
  | .str _, .arr _ => .isFalse (by intro h; exact Json.noConfusion h)
  | .str _, .obj _ => .isFalse (by intro h; exact Json.noConfusion h)
  | .arr _, .null => .isFalse (by intro h; exact Json.noConfusion h)
  | .arr _, .bool _ => .isFalse (by intro h; exact Json.noConfusion h)
  | .arr _, .num _ => .isFalse (by intro h; exact Json.noConfusion h)
  | .arr _, .str _ => .isFalse (by intro h; exact Json.noConfusion h)
  | .arr _, .obj _ => .isFalse (by intro h; exact Json.noConfusion h)
  | .obj _, .null => .isFalse (by intro h; exact Json.noConfusion h)
  | .obj _, .bool _ => .isFalse (by intro h; exact Json.noConfusion h)
  | .obj _, .num _ => .isFalse (by intro h; exact Json.noConfusion h)
  | .obj _, .str _ => .isFalse (by intro h; exact Json.noConfusion h)
  | .obj _, .arr _ => .isFalse (by intro h; exact Json.noConfusion h)

/-- Decidable equality on lists of `Json` values. -/
def Json.jdecEqList : (xs ys : List Json) → Decidable (xs = ys)
  | [], [] => .isTrue rfl
  | [], _ :: _ => .isFalse (by intro h; exact List.noConfusion h)
  | _ :: _, [] => .isFalse (by intro h; exact List.noConfusion h)
  | x :: xs, y :: ys =>
    match Json.jdecEq x y, Json.jdecEqList xs ys with
    | .isTrue h1, .isTrue h2 => .isTrue (by rw [h1, h2])
    | .isFalse h1, _ => .isFalse (by intro hc; injection hc; exact h1 (by assumption))
    | _, .isFalse h2 => .isFalse (by intro hc; injection hc; exact h2 (by assumption))

/-- Decidable equality on JSON object field lists. -/
def Json.jdecEqFields : (fs gs : List (Str × Json)) → Decidable (fs = gs)
  | [], [] => .isTrue rfl
  | [], _ :: _ => .isFalse (by intro h; exact List.noConfusion h)
  | _ :: _, [] => .isFalse (by intro h; exact List.noConfusion h)
  | (k1, v1) :: fs, (k2, v2) :: gs =>
    match decEq k1 k2, Json.jdecEq v1 v2, Json.jdecEqFields fs gs with
    | .isTrue h1, .isTrue h2, .isTrue h3 => .isTrue (by rw [h1, h2, h3])
    | .isFalse h1, _, _ =>
      .isFalse (by intro hc; injection hc with hp hrest; injection hp; exact h1 (by assumption))
    | _, .isFalse h2, _ =>
      .isFalse (by intro hc; injection hc with hp hrest; injection hp; exact h2 (by assumption))
    | _, _, .isFalse h3 => .isFalse (by intro hc; injection hc with hp hrest; exact h3 hrest)

end

instance : DecidableEq Json := Json.jdecEq

/-- First-match lookup in a JSON object's field list (Python dicts hold
unique keys after `json.loads`, so first match is the only match). -/
def jLookup : List (Str × Json) → Str → Option Json
  | [], _ => none
  | (k2, v) :: rest, k => if k2 = k then some v else jLookup rest k

/-- Field access on a document; non-objects have no fields. -/
def getField (doc : Json) (k : Str) : Option Json :=
  match doc with
  | .obj fs => jLookup fs k
  | _ => none

/-- Dotted-path field access, e.g. `args.name` (object navigation; the
documents issued by this service never nest arrays along matched paths). -/
def getPath (doc : Json) : List Str → Option Json
  | [] => some doc
  | k :: ks =>
    match getField doc k with
    | some sub => getPath sub ks
    | none => none

/-- Replace field `k` of an object's field list (append if absent). -/
def setFieldList : List (Str × Json) → Str → Json → List (Str × Json)
  | [], k, x => [(k, x)]
  | (k2, v) :: rest, k, x =>
    if k2 = k then (k2, x) :: rest else (k2, v) :: setFieldList rest k x

/-- Replace field `k` of a document (used by `$unwind` to substitute each
array element for the array). -/
def setField (doc : Json) (k : Str) (x : Json) : Json :=
  match doc with
  | .obj fs => .obj (setFieldList fs k x)
  | d => d

/-- Python truthiness of a parsed JSON value (`if value:`). -/
def pyTruthy : Json → Bool
  | .null => false
  | .bool b => b
  | .num n => decide (n ≠ 0)
  | .str s => !s.isEmpty
  | .arr xs => !xs.isEmpty
  | .obj fs => !fs.isEmpty

/-- Decimal digits of a natural number, most significant first (fuel-based
so that it reduces in the kernel). -/
def natToStrAux : Nat → Nat → Str
  | 0, _ => []
  | fuel + 1, n =>
    if n < 10 then [Char.ofNat (48 + n)]
    else natToStrAux fuel (n / 10) ++ [Char.ofNat (48 + n % 10)]

/-- Python `str` of a non-negative integer. -/
def natToStr (n : Nat) : Str := natToStrAux (n + 1) n

/-- Python `str` of an integer. -/
def intToStr : Int → Str
  | .ofNat n => natToStr n
  | .negSucc m => '-' :: natToStr (m + 1)

mutual

/-- Python `repr` of a parsed JSON value (scalars as printed by `str`;
containers in Python's bracketed notation with single-quoted strings). -/
def pyRepr : Json → Str
  | .null => "None".data
  | .bool true => "True".data
  | .bool false => "False".data
  | .num n => intToStr n
  | .str s => Char.ofNat 39 :: s ++ [Char.ofNat 39]
  | .arr xs => '[' :: pyReprList xs ++ [']']
  | .obj fs => Char.ofNat 123 :: pyReprFields fs ++ [Char.ofNat 125]

/-- Comma-separated reprs of list elements. -/
def pyReprList : List Json → Str
  | [] => []
  | [x] => pyRepr x
  | x :: y :: rest => pyRepr x ++ ", ".data ++ pyReprList (y :: rest)

/-- Comma-separated `'key': value` reprs of dict entries. -/
def pyReprFields : List (Str × Json) → Str
  | [] => []
  | [(k, v)] => (Char.ofNat 39 :: k ++ [Char.ofNat 39]) ++ ": ".data ++ pyRepr v
  | (k, v) :: e :: rest =>
    (Char.ofNat 39 :: k ++ [Char.ofNat 39]) ++ ": ".data ++ pyRepr v ++ ", ".data
      ++ pyReprFields (e :: rest)

end

/-- Python `str()` of a parsed JSON value (as used by `f"{ip}:{port}"` and
`str(addr)`): a string prints as itself, everything else as its repr. -/
def pyStr : Json → Str
  | .str s => s
  | v => pyRepr v

/-- Python hashability of a parsed JSON value: lists and dicts are
unhashable and cannot be used as dict keys. -/
def pyHashable : Json → Bool
  | .arr _ => false
  | .obj _ => false
  | _ => true

/-- Error behaviors of the `/stats/{collection_name}` endpoint:
`CollectionNotFound` (HTTP 404) and an uncaught Python `TypeError`
(raised by `s in path` when `path` is not a string-like container, or by
using an unhashable dict key). -/
inductive StatsError where
  | collectionNotFound
  | pyTypeError
deriving DecidableEq

/-- Python `needle in container` for a parsed JSON container: substring
test on strings, element membership on lists, key membership on dicts, and
a `TypeError` on non-container values. -/
def pyInE (needle : Str) (x : Json) : Except StatsError Bool :=
  match x with
  | .str s => .ok (containsSub needle s)
  | .arr xs => .ok (xs.any (fun y => decide (y = .str needle)))
  | .obj fs => .ok (fs.any (fun kv => decide (kv.1 = needle)))
  | _ => .error .pyTypeError

/-- Python `any(f(x) for x in l)`: short-circuits on the first true result,
propagating the first error raised before that. -/
def pyAnyE (f : α → Except StatsError Bool) : List α → Except StatsError Bool
  | [] => .ok false
  | x :: xs =>
    match f x with
    | .error e => .error e
    | .ok true => .ok true
    | .ok false => pyAnyE f xs

/-- Python list comprehension with a fallible filter condition: evaluates
the condition on every element in order, stopping at the first error. -/
def filterE (f : α → Except StatsError Bool) : List α → Except StatsError (List α)
  | [] => .ok []
  | x :: xs =>
    match f x with
    | .error e => .error e
    | .ok b =>
      match filterE f xs with
      | .error e => .error e
      | .ok rest => .ok (if b then x :: rest else rest)

/-- Python `d[k] = v` on an insertion-ordered dict: overwrite in place if
the key exists, else append. -/
def dictInsert (k : Json) (v : Nat) : List (Json × Nat) → List (Json × Nat)
  | [] => [(k, v)]
  | (k2, v2) :: rest =>
    if k2 = k then (k2, v) :: rest else (k2, v2) :: dictInsert k v rest

/-- Python dict built from an association list in order (`{x: y for ...}`),
assuming every key is hashable (the successful case of `pyDictOfE`). -/
def pyDictOf (l : List (Json × Nat)) : List (Json × Nat) :=
  l.foldl (fun d kv => dictInsert kv.1 kv.2 d) []

/-- The insertion loop of a Python dict comprehension: inserts each pair in
order, raising a `TypeError` at the first unhashable key (a dict or a
list). -/
def pyDictFoldE : List (Json × Nat) → List (Json × Nat) → Except StatsError (List (Json × Nat))
  | acc, [] => .ok acc
  | acc, (k, v) :: rest =>
    if pyHashable k then pyDictFoldE (dictInsert k v acc) rest
    else .error .pyTypeError

/-- Python dict comprehension `{item["_id"]: item["count"] for item in rows}`:
the insertion-ordered dict, or a `TypeError` if some group key is
unhashable. -/
def pyDictOfE (l : List (Json × Nat)) : Except StatsError (List (Json × Nat)) :=
  pyDictFoldE [] l

/-- Dict lookup (`d.get(k)`), first match. -/
def dictGet (d : List (Json × Nat)) (k : Json) : Option Nat :=
  (d.find? (fun kv => decide (kv.1 = k))).map (fun kv => kv.2)

/-- Group keys in first-appearance order with duplicates removed: the
deterministic order chosen for the `$group` stage output (MongoDB leaves
group order unspecified; no claim depends on the order of equal counts). -/
def firstOccs : List Json → List Json
  | [] => []
  | k :: rest => k :: (firstOccs rest).filter (fun j => decide (j ≠ k))

/-- The `$group: {_id: key, count: {$sum: 1}}` stage: one `(key, count)`
row per distinct key. -/
def groupCount (keys : List Json) : List (Json × Nat) :=
  (firstOccs keys).map (fun k => (k, keys.count k))

/-- Stable insertion of a row into a count-descending sorted list. -/
def insertByCount (x : Json × Nat) : List (Json × Nat) → List (Json × Nat)
  | [] => [x]
  | y :: ys => if x.2 < y.2 then y :: insertByCount x ys else x :: y :: ys

/-- The `$sort: {count: -1}` stage, as a stable insertion sort (MongoDB does
not fix the order of ties; stability is this model's deterministic choice). -/
def sortCountDesc (l : List (Json × Nat)) : List (Json × Nat) :=
  l.foldr insertByCount []

/-- Grouping followed by count-descending sort, shared by all five
aggregations. -/
def groupSortByCount (keys : List Json) : List (Json × Nat) :=
  sortCountDesc (groupCount keys)

/-- MongoDB equality match of a query value `v` against a stored value `x`:
direct BSON equality, or — when the stored value is an array — containment
of `v` among its elements. -/
def mongoEqMatch (v x : Json) : Bool :=
  decide (x = v) || (match x with | .arr xs => xs.any (fun y => decide (y = v)) | _ => false)

/-- A `$match`/`find` equality condition `{path: v}` on a document. -/
def matchPathEqJ (doc : Json) (path : List Str) (v : Json) : Bool :=
  match getPath doc path with
  | some x => mongoEqMatch v x
  | none => decide (v = .null)

/-- The `$unwind: "$k"` stage on one document: one output document per array
element with the element substituted for the array; documents whose field is
missing, null or an empty array are dropped; a non-array value passes
through unchanged. -/
def unwindField (k : Str) (doc : Json) : List Json :=
  match getField doc k with
  | some (.arr xs) => xs.map (fun x => setField doc k x)
  | some .null => []
  | none => []
  | some _ => [doc]

/-- The `$unwind: "$k1.k2"` stage on one document (used for
`$args.value`): same dropping rules, substituting along the two-step path. -/
def unwindPath2 (k1 k2 : Str) (doc : Json) : List Json :=
  match getField doc k1 with
  | some sub =>
    match getField sub k2 with
    | some (.arr xs) => xs.map (fun x => setField doc k1 (setField sub k2 x))
    | some .null => []
    | none => []
    | some _ => [doc]
  | none => []

/-- The sensitive-path list `SENSITIVE_PATHS` of the source. -/
def SENSITIVE_PATHS : List Str :=
  ["/etc/passwd".data, "/etc/shadow".data, "/root".data, ".ssh".data]

/-- The shell-binary list `SHELL_BINARIES` of the source. -/
def SHELL_BINARIES : List Str :=
  ["/bin/sh".data, "/bin/bash".data, "sh".data, "bash".data]

/-- Keys of the syscall-profile aggregation: `$group` by `$eventName` over
all documents (a missing field groups under null). -/
def syscallKeys (docs : List Json) : List Json :=
  docs.map (fun d => (getField d "eventName".data).getD .null)

/-- Keys produced by the shared pipeline shape
`$match {eventName: ev} / $unwind $args / $match {args.name: arg} /
$group by $args.value` used by the file-access, executed-commands and
network-IP aggregations. -/
def argValueKeys (ev arg : Str) (docs : List Json) : List Json :=
  ((((docs.filter (fun d => matchPathEqJ d ["eventName".data] (.str ev))).flatMap
      (unwindField "args".data)).filter
      (fun d => matchPathEqJ d ["args".data, "name".data] (.str arg))).map
      (fun d => (getPath d ["args".data, "value".data]).getD .null))

/-- Keys of the DNS aggregation: additionally `$unwind $args.value` and
group by `$args.value.query`. -/
def dnsKeys (docs : List Json) : List Json :=
  (((((docs.filter
        (fun d => matchPathEqJ d ["eventName".data] (.str "net_packet_dns_request".data))).flatMap
      (unwindField "args".data)).filter
      (fun d => matchPathEqJ d ["args".data, "name".data] (.str "dns_questions".data))).flatMap
      (unwindPath2 "args".data "value".data)).map
      (fun d => (getPath d ["args".data, "value".data, "query".data]).getD .null))

/-- Aggregation result rows for `file_pipeline` (openat / pathname). -/
def fileResults (docs : List Json) : List (Json × Nat) :=
  groupSortByCount (argValueKeys "openat".data "pathname".data docs)

/-- Aggregation result rows for `exec_pipeline` (execve / pathname). -/
def execResults (docs : List Json) : List (Json × Nat) :=
  groupSortByCount (argValueKeys "execve".data "pathname".data docs)

/-- Aggregation result rows for `ip_pipeline` (connect / addr). -/
def ipResults (docs : List Json) : List (Json × Nat) :=
  groupSortByCount (argValueKeys "connect".data "addr".data docs)

/-- Aggregation result rows for `dns_pipeline`. -/
def dnsResults (docs : List Json) : List (Json × Nat) :=
  groupSortByCount (dnsKeys docs)

/-- Normalization of one `addr` group key in the ip-usage loop: a dict
yields `f"{ip}:{port}"` when the port is truthy, else the raw `ip` value
(which then must be hashable to serve as a dict key); a non-dict value is
stringified.  Mirrors the `isinstance(addr, dict)` branch of the source. -/
def ipKeyE : Json → Except StatsError Json
  | .obj fs =>
    let ip := (jLookup fs "ip".data).getD (.str "unknown".data)
    let port := (jLookup fs "port".data).getD (.str [])
    if pyTruthy port then .ok (.str (pyStr ip ++ [':'] ++ pyStr port))
    else if pyHashable ip then .ok ip
    else .error .pyTypeError
  | a => .ok (.str (pyStr a))

/-- The ip-usage dict-building loop over the sorted group rows. -/
def ipUsageFold : List (Json × Nat) → List (Json × Nat) → Except StatsError (List (Json × Nat))
  | acc, [] => .ok acc
  | acc, (k, c) :: rest =>
    match ipKeyE k with
    | .error e => .error e
    | .ok key => ipUsageFold (dictInsert key c acc) rest

/-- `ip_usage` as built by the source's for-loop. -/
def ipUsageE (rows : List (Json × Nat)) : Except StatsError (List (Json × Nat)) :=
  ipUsageFold [] rows

/-- The response of `/stats/{collection_name}` (field names follow the
returned JSON; `ips` and `dns_records` are the two members of
`network_activity`). -/
structure StatsReport where
  collection : Str
  total_events : Nat
  syscall_profile : List (Json × Nat)
  file_access : List (Json × Nat)
  executed_commands : List (Json × Nat)
  ips : List (Json × Nat)
  dns_records : List (Json × Nat)
  risk_flags : List Str
deriving DecidableEq

/-- A database: named collections in creation order. -/
abbrev Db := List (Str × List Json)

/-- Collection lookup (also models the `list_collection_names` existence
check). -/
def dbLookup : Db → Str → Option (List Json)
  | [], _ => none
  | (n, docs) :: rest, name => if n = name then some docs else dbLookup rest name

/-- The computations of `get_stats` that can raise a Python `TypeError`,
in the source's evaluation order: the syscall-profile dict comprehension,
the file-access dict comprehension, `sensitive_hits`, the
executed-commands dict comprehension, `shell_spawned`, the ip-usage loop,
the dns dict comprehension, and the `procfs` generator inside the
flag-list construction. -/
def statsOfDocs (name : Str) (docs : List Json) : Except StatsError StatsReport :=
  match pyDictOfE (groupSortByCount (syscallKeys docs)) with
  | .error e => .error e
  | .ok syscalls =>
    match pyDictOfE (fileResults docs) with
    | .error e => .error e
    | .ok fa =>
      match filterE (fun kv => pyAnyE (fun s => pyInE s kv.1) SENSITIVE_PATHS) fa with
      | .error e => .error e
      | .ok sens =>
        match pyDictOfE (execResults docs) with
        | .error e => .error e
        | .ok ec =>
          match pyAnyE (fun kv => pyAnyE (fun sh => pyInE sh kv.1) SHELL_BINARIES) ec with
          | .error e => .error e
          | .ok shell =>
            match ipUsageE (ipResults docs) with
            | .error e => .error e
            | .ok ips =>
              match pyDictOfE (dnsResults docs) with
              | .error e => .error e
              | .ok dns =>
                match pyAnyE (fun kv => pyInE "/proc".data kv.1) fa with
                | .error e => .error e
                | .ok procfs =>
                  .ok
                    { collection := name
                      total_events := docs.length
                      syscall_profile := syscalls
                      file_access := fa
                      executed_commands := ec
                      ips := ips
                      dns_records := dns
                      risk_flags :=
                        (if sens.isEmpty then [] else ["sensitive_file_access".data])
                          ++ (if shell then ["shell_spawned".data] else [])
                          ++ (if ips.isEmpty then [] else ["network_activity".data])
                          ++ (if procfs then ["procfs_access".data] else []) }

/-- The `/stats/{collection_name}` endpoint (`get_stats` in the source). -/
def get_stats (db : Db) (collection_name : Str) : Except StatsError StatsReport :=
  match dbLookup db collection_name with
  | none => .error .collectionNotFound
  | some docs => statsOfDocs collection_name docs

/-- Error behaviors of `/specific/{collection_name}`: HTTP 404 for a missing
collection, HTTP 400 ("Provide one of: dns, command, or file query
parameter") when no truthy indicator is supplied, and an uncaught Python
`AttributeError` (HTTP 500) raised by
`event.get("executable", {}).get("path")` when a returned event stores a
non-dict `executable` value. -/
inductive SpecificError where
  | collectionNotFound
  | missingIndicator
  | pyAttributeError
deriving DecidableEq

/-- Python truthiness of an optional string query parameter (`if dns:`):
absent and empty strings are both falsy. -/
def truthyStr : Option Str → Bool
  | none => false
  | some s => !s.isEmpty

/-- `{field: {$elemMatch: {name: nm, value: v}}}` on the `args` array:
some element satisfies both equality conditions. -/
def argsElemMatch (nm : Str) (v : Json) (doc : Json) : Bool :=
  match getField doc "args".data with
  | some (.arr xs) =>
    xs.any (fun el => matchPathEqJ el ["name".data] (.str nm) && matchPathEqJ el ["value".data] v)
  | _ => false

/-- The DNS drill-down `find` filter: a DNS-request event whose
`dns_questions` argument value contains a record with `query == q`. -/
def dnsEventMatch (q : Str) (doc : Json) : Bool :=
  matchPathEqJ doc ["eventName".data] (.str "net_packet_dns_request".data) &&
    (match getField doc "args".data with
     | some (.arr xs) =>
       xs.any (fun el =>
         matchPathEqJ el ["name".data] (.str "dns_questions".data) &&
           (match getField el "value".data with
            | some (.arr qs) => qs.any (fun e2 => matchPathEqJ e2 ["query".data] (.str q))
            | _ => false))
     | _ => false)

/-- The command drill-down `find` filter: an execve event with a `pathname`
argument equal to `cmd`. -/
def commandEventMatch (cmd : Str) (doc : Json) : Bool :=
  matchPathEqJ doc ["eventName".data] (.str "execve".data) &&
    argsElemMatch "pathname".data (.str cmd) doc

/-- The file drill-down `find` filter: an openat event with a `pathname`
argument equal to `path`. -/
def fileEventMatch (path : Str) (doc : Json) : Bool :=
  matchPathEqJ doc ["eventName".data] (.str "openat".data) &&
    argsElemMatch "pathname".data (.str path) doc

/-- `cursor.limit(limit)`: pymongo/MongoDB treat a limit of 0 as "no
limit", otherwise at most `limit` documents are returned. -/
def mongoLimit (limit : Nat) (l : List Json) : List Json :=
  if limit = 0 then l else l.take limit

/-- `event.get(k)`: the field's value, or `None` when absent. -/
def jGet (e : Json) (k : Str) : Json := (getField e k).getD .null

/-- `event.get("executable", {}).get("path")`: an absent `executable` falls
back to the default `\x7b\x7d` (yielding `None`), a dict value is looked up
for `path` (default `None`), and any other present value — `None`, a
number, a string, a list — has no `.get` method, so Python raises an
uncaught `AttributeError`. -/
def execPathOfE (e : Json) : Except SpecificError Json :=
  match getField e "executable".data with
  | none => .ok .null
  | some (.obj fs) => .ok ((jLookup fs "path".data).getD .null)
  | some _ => .error .pyAttributeError

/-- Whether an event's `executable` field is absent or a dict: the shapes
on which `event.get("executable", {}).get("path")` succeeds rather than
raising `AttributeError`. -/
def executableOkB (e : Json) : Bool :=
  match getField e "executable".data with
  | none => true
  | some (.obj _) => true
  | some _ => false

/-- The value of `event.get("executable", {}).get("path")` on an event
whose `executable` field is absent or a dict (the successful case of
`execPathOfE`; on other shapes the endpoint raises and this value is
unused). -/
def execPathOf (e : Json) : Json :=
  match getField e "executable".data with
  | some (.obj fs) => (jLookup fs "path".data).getD .null
  | _ => .null

/-- Projection of one result in the `dns` branch (no parent-process id). -/
def projDns (e : Json) : Json :=
  .obj
    [("process".data, jGet e "processName".data),
     ("process_id".data, jGet e "processId".data),
     ("executable".data, execPathOf e),
     ("timestamp".data, jGet e "timestamp".data),
     ("args".data, jGet e "args".data)]

/-- Projection of one result in the `command` branch (includes
`parent_process_id`). -/
def projCommand (e : Json) : Json :=
  .obj
    [("process".data, jGet e "processName".data),
     ("process_id".data, jGet e "processId".data),
     ("parent_process_id".data, jGet e "parentProcessId".data),
     ("executable".data, execPathOf e),
     ("timestamp".data, jGet e "timestamp".data),
     ("args".data, jGet e "args".data)]

/-- Projection of one result in the `file` branch (no parent-process id). -/
def projFile (e : Json) : Json :=
  .obj
    [("process".data, jGet e "processName".data),
     ("process_id".data, jGet e "processId".data),
     ("executable".data, execPathOf e),
     ("timestamp".data, jGet e "timestamp".data),
     ("args".data, jGet e "args".data)]

/-- Fallible projection of one `dns`-branch result as the loop body builds
it: the dict literal's `executable` entry evaluates
`event.get("executable", {}).get("path")`, which raises on a present
non-dict `executable`; on success the record is `projDns e`. -/
def projDnsE (e : Json) : Except SpecificError Json :=
  match execPathOfE e with
  | .error err => .error err
  | .ok ex =>
    .ok (.obj
      [("process".data, jGet e "processName".data),
       ("process_id".data, jGet e "processId".data),
       ("executable".data, ex),
       ("timestamp".data, jGet e "timestamp".data),
       ("args".data, jGet e "args".data)])

/-- Fallible projection of one `command`-branch result (includes
`parent_process_id`); raises like `projDnsE` on a present non-dict
`executable`. -/
def projCommandE (e : Json) : Except SpecificError Json :=
  match execPathOfE e with
  | .error err => .error err
  | .ok ex =>
    .ok (.obj
      [("process".data, jGet e "processName".data),
       ("process_id".data, jGet e "processId".data),
       ("parent_process_id".data, jGet e "parentProcessId".data),
       ("executable".data, ex),
       ("timestamp".data, jGet e "timestamp".data),
       ("args".data, jGet e "args".data)])

/-- Fallible projection of one `file`-branch result; raises like
`projDnsE` on a present non-dict `executable`. -/
def projFileE (e : Json) : Except SpecificError Json :=
  match execPathOfE e with
  | .error err => .error err
  | .ok ex =>
    .ok (.obj
      [("process".data, jGet e "processName".data),
       ("process_id".data, jGet e "processId".data),
       ("executable".data, ex),
       ("timestamp".data, jGet e "timestamp".data),
       ("args".data, jGet e "args".data)])

/-- The `results.append(...)` loop over the cursor: projects each returned
event in order, propagating the first raised `AttributeError` (which
aborts the request before any page is returned). -/
def projListE (f : Json → Except SpecificError Json) :
    List Json → Except SpecificError (List Json)
  | [] => .ok []
  | e :: rest =>
    match f e with
    | .error err => .error err
    | .ok r =>
      match projListE f rest with
      | .error err => .error err
      | .ok rs => .ok (r :: rs)

/-- The page selected by `find(query).skip(offset).limit(limit)`: the
matching documents in stored order, minus the first `offset`, cut to
`limit` when the limit is positive (`limit(0)` means "no limit"). -/
def pageMatches (m : Json → Bool) (docs : List Json) (limit offset : Nat) : List Json :=
  mongoLimit limit ((docs.filter m).drop offset)

/-- Response wrapper `{"specific": {kind: {key: results}}}`. -/
def wrapSpecific (kind key : Str) (rs : List Json) : Json :=
  .obj [("specific".data, .obj [(kind, .obj [(key, .arr rs)])])]

/-- The `/specific/{collection_name}` endpoint (`get_specific_data` in the
source): 404 check, then the `dns` / `command` / `file` branches in order
(Python `if dns:` truthiness), each running
`find(query).skip(offset).limit(limit)` and projecting each returned event
(raising `AttributeError` on a present non-dict `executable`), else
HTTP 400. -/
def get_specific_data (db : Db) (collection_name : Str)
    (dns command file : Option Str) (limit offset : Nat) :
    Except SpecificError Json :=
  match dbLookup db collection_name with
  | none => .error .collectionNotFound
  | some docs =>
    if truthyStr dns then
      let q := dns.getD []
      match projListE projDnsE (pageMatches (dnsEventMatch q) docs limit offset) with
      | .error e => .error e
      | .ok rs => .ok (wrapSpecific "dns_calls".data q rs)
    else if truthyStr command then
      let c := command.getD []
      match projListE projCommandE (pageMatches (commandEventMatch c) docs limit offset) with
      | .error e => .error e
      | .ok rs => .ok (wrapSpecific "command_calls".data c rs)
    else if truthyStr file then
      let f := file.getD []
      match projListE projFileE (pageMatches (fileEventMatch f) docs limit offset) with
      | .error e => .error e
      | .ok rs => .ok (wrapSpecific "file_access".data f rs)
    else .error .missingIndicator

/-- One multi-byte UTF-8 sequence headed by the non-ASCII byte `b`:
returns the decoded character and the remaining bytes, or `none` for an
invalid leading byte, an out-of-range continuation byte, an overlong
encoding, a surrogate, or a truncated sequence. -/
def decodeMB (b : Nat) (rest : List Nat) : Option (Char × List Nat) :=
  if b < 194 then none
  else if b ≤ 223 then
    match rest with
    | b1 :: r2 =>
      if 128 ≤ b1 ∧ b1 ≤ 191 then
        some (Char.ofNat ((b - 192) * 64 + (b1 - 128)), r2)
      else none
    | [] => none
  else if b ≤ 239 then
    match rest with
    | b1 :: b2 :: r3 =>
      if (if b = 224 then 160 ≤ b1 ∧ b1 ≤ 191
          else if b = 237 then 128 ≤ b1 ∧ b1 ≤ 159
          else 128 ≤ b1 ∧ b1 ≤ 191) ∧ (128 ≤ b2 ∧ b2 ≤ 191) then
        some (Char.ofNat (((b - 224) * 64 + (b1 - 128)) * 64 + (b2 - 128)), r3)
      else none
    | _ => none
  else if b ≤ 244 then
    match rest with
    | b1 :: b2 :: b3 :: r4 =>
      if (if b = 240 then 144 ≤ b1 ∧ b1 ≤ 191
          else if b = 244 then 128 ≤ b1 ∧ b1 ≤ 143
          else 128 ≤ b1 ∧ b1 ≤ 191) ∧ (128 ≤ b2 ∧ b2 ≤ 191) ∧ (128 ≤ b3 ∧ b3 ≤ 191) then
        some
          (Char.ofNat ((((b - 240) * 64 + (b1 - 128)) * 64 + (b2 - 128)) * 64 + (b3 - 128)),
            r4)
      else none
    | _ => none
  else none

/-- Strict UTF-8 decoding of a byte list (fuel-based; each decoded
character consumes at least one byte and one unit of fuel). -/
def decodeUtf8Aux : Nat → List Nat → Option Str
  | 0, _ => none
  | _ + 1, [] => some []
  | fuel + 1, b :: rest =>
    if b < 128 then (decodeUtf8Aux fuel rest).map (fun t => Char.ofNat b :: t)
    else
      match decodeMB b rest with
      | some (c, r2) => (decodeUtf8Aux fuel r2).map (fun t => c :: t)
      | none => none

/-- Strict UTF-8 decoding, as performed by Python's
`bytes.decode("utf-8")`: rejects invalid leading bytes, out-of-range
continuation bytes, overlong encodings, surrogates, and truncated
sequences (the behavior that matters at a chunk boundary). -/
def decodeUtf8 (l : List Nat) : Option Str := decodeUtf8Aux (l.length + 1) l

/-- Newline-separated segments of a string ("a\nb" and trailing-newline
handling as in Python; the uploads in question use `\n` line endings). -/
def splitOnNl : Str → List Str
  | [] => [[]]
  | c :: rest =>
    if c = '\n' then [] :: splitOnNl rest
    else ((c :: (splitOnNl rest).headI) :: (splitOnNl rest).tail)

/-- Python `str.splitlines` for `\n`-delimited text: newline-separated
segments, without a trailing empty segment after a final newline. -/
def splitlines (s : Str) : List Str :=
  let p := splitOnNl s
  if p.getLastD [] = [] then p.dropLast else p

/-- JSON insignificant whitespace (also what `json.loads` strips). -/
def isWsChar (c : Char) : Bool := c = ' ' || c = '\t' || c = '\n' || c = '\r'

/-- Drop leading whitespace. -/
def skipWs : Str → Str
  | [] => []
  | c :: rest => if isWsChar c then skipWs rest else c :: rest

/-- Digits taken greedily from the front of a string. -/
def parseDigits : Str → List Char × Str
  | [] => ([], [])
  | c :: rest =>
    if c.isDigit then
      match parseDigits rest with
      | (ds, r) => (c :: ds, r)
    else ([], c :: rest)

/-- Numeric value of a digit string. -/
def digitsToNat : List Char → Nat :=
  List.foldl (fun a c => a * 10 + (c.toNat - 48)) 0

/-- Body of a JSON string after the opening quote, with the single-character
escapes; returns the decoded string and the rest of the input.  (`\uXXXX`
escapes and floats are not exercised by this service's documents and are
outside the model.) -/
def parseStringBody : Nat → Str → Option (Str × Str)
  | 0, _ => none
  | fuel + 1, s =>
    match s with
    | [] => none
    | c :: rest =>
      if c = '"' then some ([], rest)
      else if c = '\\' then
        match rest with
        | e :: r2 =>
          let esc : Option Char :=
            if e = '"' then some '"'
            else if e = '\\' then some '\\'
            else if e = '/' then some '/'
            else if e = 'n' then some '\n'
            else if e = 't' then some '\t'
            else if e = 'r' then some '\r'
            else if e = 'b' then some (Char.ofNat 8)
            else if e = 'f' then some (Char.ofNat 12)
            else none
          match esc with
          | some ch => (parseStringBody fuel r2).map (fun p => (ch :: p.1, p.2))
          | none => none
        | [] => none
      else (parseStringBody fuel rest).map (fun p => (c :: p.1, p.2))

mutual

/-- One JSON value from the front of the input (fuel-based recursive-descent
model of `json.loads`' grammar, integers only). -/
def parseValue : Nat → Str → Option (Json × Str)
  | 0, _ => none
  | fuel + 1, s =>
    match skipWs s with
    | [] => none
    | c :: rest =>
      if c = '\x7b' then
        match skipWs rest with
        | '\x7d' :: r2 => some (.obj [], r2)
        | _ => parseMembers fuel rest []
      else if c = '[' then
        match skipWs rest with
        | ']' :: r2 => some (.arr [], r2)
        | _ => parseElems fuel rest []
      else if c = '"' then
        (parseStringBody (rest.length + 1) rest).map (fun p => (.str p.1, p.2))
      else if c = '-' then
        match rest with
        | d :: _ =>
          if d.isDigit then
            match parseDigits rest with
            | (ds, r) => some (.num (-(Int.ofNat (digitsToNat ds))), r)
          else none
        | [] => none
      else if c.isDigit then
        match parseDigits (c :: rest) with
        | (ds, r) => some (.num (Int.ofNat (digitsToNat ds)), r)
      else if c = 't' then
        if "rue".data.isPrefixOf rest then some (.bool true, rest.drop 3) else none
      else if c = 'f' then
        if "alse".data.isPrefixOf rest then some (.bool false, rest.drop 4) else none
      else if c = 'n' then
        if "ull".data.isPrefixOf rest then some (.null, rest.drop 3) else none
      else none

/-- Members of a JSON object after the opening brace (duplicate keys follow
Python's last-wins dict semantics). -/
def parseMembers : Nat → Str → List (Str × Json) → Option (Json × Str)
  | 0, _, _ => none
  | fuel + 1, s, acc =>
    match skipWs s with
    | '"' :: r1 =>
      match parseStringBody (r1.length + 1) r1 with
      | some (key, r2) =>
        match skipWs r2 with
        | ':' :: r3 =>
          match parseValue fuel r3 with
          | some (v, r4) =>
            match skipWs r4 with
            | ',' :: r5 => parseMembers fuel r5 (setFieldList acc key v)
            | '\x7d' :: r5 => some (.obj (setFieldList acc key v), r5)
            | _ => none
          | none => none
        | _ => none
      | none => none
    | _ => none

/-- Elements of a JSON array after the opening bracket. -/
def parseElems : Nat → Str → List Json → Option (Json × Str)
  | 0, _, _ => none
  | fuel + 1, s, acc =>
    match parseValue fuel s with
    | some (v, r1) =>
      match skipWs r1 with
      | ',' :: r2 => parseElems fuel r2 (acc ++ [v])
      | ']' :: r2 => some (.arr (acc ++ [v]), r2)
      | _ => none
    | none => none

end

/-- `json.loads` on one line: a single JSON value with nothing but
whitespace around it, else failure (`json.JSONDecodeError`). -/
def parseJson (s : Str) : Option Json :=
  match parseValue (2 * s.length + 2) s with
  | some (v, rest) => if skipWs rest = [] then some v else none
  | none => none

/-- A line is well-formed when `json.loads` accepts it. -/
def wellFormedLine (l : Str) : Bool := (parseJson l).isSome

/-- Error behaviors of `/upload-tracee`: HTTP 400 for a bad extension,
HTTP 500 for a caught `BulkWriteError` (`IngestionFailed`; the pure store
model cannot produce one), and the uncaught `UnicodeDecodeError` raised by
`chunk.decode("utf-8")`, which escapes the endpoint as a generic server
failure outside the documented taxonomy. -/
inductive UploadError where
  | unsupportedFormat
  | ingestionFailed
  | decodeError
deriving DecidableEq

instance {ε α : Type} [DecidableEq ε] [DecidableEq α] : DecidableEq (Except ε α) := fun a b =>
  match a, b with
  | .ok x, .ok y =>
    match decEq x y with
    | .isTrue h => .isTrue (by rw [h])
    | .isFalse h => .isFalse (by intro hc; injection hc; exact h (by assumption))
  | .error x, .error y =>
    match decEq x y with
    | .isTrue h => .isTrue (by rw [h])
    | .isFalse h => .isFalse (by intro hc; injection hc; exact h (by assumption))
  | .ok _, .error _ => .isFalse (by intro hc; exact Except.noConfusion hc)
  | .error _, .ok _ => .isFalse (by intro hc; exact Except.noConfusion hc)

/-- The allowed upload extensions of the source. -/
def ALLOWED_EXTENSIONS : List Str := [".json".data, ".jsonl".data, ".log".data]

/-- `file.filename.lower().endswith((".json", ".jsonl", ".log"))`. -/
def extensionOk (filename : Str) : Bool :=
  ALLOWED_EXTENSIONS.any (fun e => e.isSuffixOf (strLower filename))

/-- `await file.read(1024 * 1024)` until exhaustion: the byte stream cut
into successive chunks of at most 1 MiB (fuel-based so that it reduces;
each step consumes at least one byte, so `length + 1` fuel suffices). -/
def readChunksAux : Nat → List Nat → List (List Nat)
  | 0, _ => []
  | _ + 1, [] => []
  | fuel + 1, b :: bs =>
    (b :: bs).take 1048576 :: readChunksAux fuel ((b :: bs).drop 1048576)

/-- The chunk sequence read from an upload's byte stream. -/
def readChunks (content : List Nat) : List (List Nat) :=
  readChunksAux (content.length + 1) content

/-- The per-line body of the ingestion loop: parse the line, append to the
batch on success (skip on `JSONDecodeError`), and flush the batch into the
running inserted count when it reaches 1000.  The state is
`(batch, inserted_count)`; the pure store model makes `insert_many` a
count increment, which is all the endpoint observes. -/
def pushLine (st : List Json × Nat) (line : Str) : List Json × Nat :=
  match parseJson line with
  | none => st
  | some e =>
    let batch := st.1 ++ [e]
    if 1000 ≤ batch.length then ([], st.2 + batch.length) else (batch, st.2)

/-- The `for line in lines` loop over one decoded chunk. -/
def processLines (st : List Json × Nat) (lines : List Str) : List Json × Nat :=
  lines.foldl pushLine st

/-- The `while True` chunk loop: decode each chunk (an undecodable chunk
raises out of the endpoint), split it into lines with no carry-over of a
trailing partial line, and run the line loop. -/
def ingestChunks : List (List Nat) → List Json × Nat → Except UploadError (List Json × Nat)
  | [], st => .ok st
  | c :: cs, st =>
    match decodeUtf8 c with
    | none => .error .decodeError
    | some text => ingestChunks cs (processLines st (splitlines text))

/-- The `/upload-tracee` endpoint (`upload_tracee` in the source): extension
check, chunked read/decode/split/parse/batch loop, final flush of the
partial batch; returns `documents_inserted`. -/
def upload_tracee (filename : Str) (content : List Nat) : Except UploadError Nat :=
  if !extensionOk filename then .error .unsupportedFormat
  else
    match ingestChunks (readChunks content) ([], 0) with
    | .error e => .error e
    | .ok (batch, count) => .ok (count + batch.length)

/-- ASCII bytes of a string (used to build concrete upload streams). -/
def asciiBytes (s : Str) : List Nat := s.map Char.toNat

/-- The lines of an upload stream as a whole, for stating claims about
"the stream's lines": full decode, then `splitlines`. -/
def streamLines (content : List Nat) : Option (List Str) :=
  (decodeUtf8 content).map splitlines

/-- The byte-level lines of an upload stream (split at the newline byte),
for stating claims about streams that are not valid UTF-8. -/
def bytesLines (content : List Nat) : List (List Nat) :=
  let p := content.splitOn 10
  if p.getLastD [] = [] then p.dropLast else p

/-- An `args` entry `{"name": nm, "value": v}`. -/
def mkArg (nm : Str) (v : Json) : Json :=
  .obj [("name".data, .str nm), ("value".data, v)]

/-- A DNS-request event (with a parent-process id) querying `x.com`. -/
def c3dnsEvent : Json :=
  .obj
    [("timestamp".data, .num 1001),
     ("processId".data, .num 10),
     ("parentProcessId".data, .num 7),
     ("processName".data, .str "curl".data),
     ("eventName".data, .str "net_packet_dns_request".data),
     ("executable".data, .obj [("path".data, .str "/usr/bin/curl".data)]),
     ("args".data,
      .arr
        [mkArg "dns_questions".data
          (.arr [.obj [("query".data, .str "x.com".data), ("type".data, .str "A".data)]])])]

/-- A process-exec event for `/bin/ls` (with a parent-process id);
`i` distinguishes stored instances via timestamp/pid. -/
def mkExecEvent (i : Int) : Json :=
  .obj
    [("timestamp".data, .num i),
     ("processId".data, .num i),
     ("parentProcessId".data, .num 7),
     ("processName".data, .str "bash".data),
     ("eventName".data, .str "execve".data),
     ("executable".data, .obj [("path".data, .str "/bin/ls".data)]),
     ("args".data, .arr [mkArg "pathname".data (.str "/bin/ls".data)])]

/-- A file-open event carrying two `pathname` arguments with the same
value (argument names are not unique). -/
def c4openatEvent : Json :=
  .obj
    [("eventName".data, .str "openat".data),
     ("args".data,
      .arr [mkArg "pathname".data (.str "/a".data), mkArg "pathname".data (.str "/a".data)])]

/-- A file-open event whose `pathname` argument value is a number, not a
string. -/
def c5openatEvent : Json :=
  .obj
    [("eventName".data, .str "openat".data),
     ("args".data, .arr [mkArg "pathname".data (.num 42)])]

/-- A network-connect event with the given `addr` argument value. -/
def connectEvent (a : Json) : Json :=
  .obj [("eventName".data, .str "connect".data), ("args".data, .arr [mkArg "addr".data a])]

/-- Whether a JSON value is a string (the shape under which the risk-flag
substring predicates are well-defined). -/
def isJStr : Json → Bool
  | .str _ => true
  | _ => false

/-- The claim-side "key contains `s` as a substring" predicate on a group
key (false on non-strings). -/
def jContains (s : Str) : Json → Bool
  | .str t => containsSub s t
  | _ => false

/-- A document whose `args` field is an array, null, or absent: the shapes
on which `$unwind` produces one output per array element or none (a
non-array, non-null `args` would instead pass through whole). -/
def argsOkB (d : Json) : Bool :=
  match getField d "args".data with
  | some (.arr _) => true
  | some .null => true
  | none => true
  | some _ => false

/-- Claim-side view of one document's matching argument pairs: the values
of ALL `args` entries whose `name` matches `arg` (not just the first). -/
def argPairValues (arg : Str) (doc : Json) : List Json :=
  match getField doc "args".data with
  | some (.arr xs) =>
    (xs.filter (fun el => matchPathEqJ el ["name".data] (.str arg))).map
      (fun el => (getPath el ["value".data]).getD .null)
  | _ => []

/-- How many of a document's argument pairs have name `arg` and value
`v`. -/
def matchingPairCount (arg : Str) (v : Json) (doc : Json) : Nat :=
  (argPairValues arg doc).count v

/-- Claim-side total: one occurrence per matching `(event, pair)` — the
sum over the events with the given `eventName` of their number of `arg`
pairs valued `v`. -/
def perPairCount (ev arg : Str) (v : Json) (docs : List Json) : Nat :=
  ((docs.filter (fun d => matchPathEqJ d ["eventName".data] (.str ev))).map
    (matchingPairCount arg v)).sum

/-- A file-open event on `/etc/passwd` (used as a risk-flag witness). -/
def openatPasswdEvent : Json :=
  .obj
    [("eventName".data, .str "openat".data),
     ("args".data, .arr [mkArg "pathname".data (.str "/etc/passwd".data)])]

/-- The stats report of a collection holding only `c4openatEvent` (used to
instantiate the C4 theorem). -/
def c4Report : StatsReport :=
  { collection := "c".data, total_events := 1,
    syscall_profile := [(.str "openat".data, 1)],
    file_access := [(.str "/a".data, 2)],
    executed_commands := [], ips := [], dns_records := [], risk_flags := [] }

/-- The stats report of a collection holding only `openatPasswdEvent`. -/
def c5Report : StatsReport :=
  { collection := "c".data, total_events := 1,
    syscall_profile := [(.str "openat".data, 1)],
    file_access := [(.str "/etc/passwd".data, 1)],
    executed_commands := [], ips := [], dns_records := [],
    risk_flags := ["sensitive_file_access".data] }

/-- A database with five stored `/bin/ls` exec events (the pagination
example of the spec). -/
def c8db : Db :=
  [("c".data, [mkExecEvent 1, mkExecEvent 2, mkExecEvent 3, mkExecEvent 4, mkExecEvent 5])]

/-- First 1 MiB of claim C1's upload stream: 1048570 filler bytes `x`, a
newline, and the first five bytes of the spanning JSON line — exactly
1048576 bytes. -/
def c1ChunkA : List Nat := List.replicate 1048570 120 ++ asciiBytes "\n\x7b\"a\":".data

/-- Remainder of claim C1's upload stream: the last two bytes of the
spanning JSON line and its final newline. -/
def c1ChunkB : List Nat := asciiBytes "1\x7d\n".data

/-- Claim C1's upload stream: a malformed filler line and one well-formed
JSON line `{"a":1}` that spans the 1 MiB chunk boundary. -/
def c1Bytes : List Nat := c1ChunkA ++ c1ChunkB

/-- Claim C10's upload stream: 1048575 ASCII bytes, then the two-byte
UTF-8 character U+00E9 straddling the 1 MiB chunk boundary, then a
newline.  The stream as a whole is valid UTF-8. -/
def c10Bytes : List Nat := List.replicate 1048575 97 ++ [195, 169, 10]

/-- The upload stream of claim C2's failing input: one well-formed JSON
line followed by one malformed line consisting of the single byte 0xFF
(not valid UTF-8). -/
def c2Bytes : List Nat := asciiBytes "\x7b\"a\":1\x7d\n".data ++ [255, 10]

/-- Claim C9: `ComputeStats` on an existing empty collection returns
`total_events = 0`, all five maps empty, and no risk flags. -/
theorem c9_stats_empty_collection (db : Db) (name : Str) (h : dbLookup db name = some []) :
    get_stats db name
      = .ok
          { collection := name, total_events := 0, syscall_profile := [], file_access := [],
            executed_commands := [], ips := [], dns_records := [], risk_flags := [] } := by
  simp only [get_stats, h]
  rfl

/-- Witness for C9 at a concrete database holding one empty collection. -/
theorem c9_stats_empty_collection_witness :
    get_stats [("c".data, [])] "c".data
      = .ok
          { collection := "c".data, total_events := 0, syscall_profile := [], file_access := [],
            executed_commands := [], ips := [], dns_records := [], risk_flags := [] } :=
  c9_stats_empty_collection [("c".data, [])] "c".data (by decide)

/-- An absent query parameter is falsy. -/
theorem truthyStr_none : truthyStr none = false := rfl

/-- Claim C7: on an existing collection, the drill-down endpoint fails with
`MissingIndicator` when no truthy indicator is supplied, and otherwise
honors the first present indicator in the fixed order dns > command > file:
the result is unchanged when all lower-precedence indicators are removed. -/
theorem c7_indicator_precedence (db : Db) (name : Str) (dns command file : Option Str)
    (limit offset : Nat) (docs : List Json) (h : dbLookup db name = some docs) :
    ((truthyStr dns = false ∧ truthyStr command = false ∧ truthyStr file = false) →
        get_specific_data db name dns command file limit offset = .error .missingIndicator)
      ∧ (truthyStr dns = true →
          get_specific_data db name dns command file limit offset
            = get_specific_data db name dns none none limit offset)
      ∧ (truthyStr dns = false → truthyStr command = true →
          get_specific_data db name dns command file limit offset
            = get_specific_data db name none command none limit offset) := by
  refine ⟨fun hf => ?_, fun hd => ?_, fun hd hc => ?_⟩
  · simp [get_specific_data, h, hf.1, hf.2.1, hf.2.2]
  · simp [get_specific_data, h, hd]
  · simp [get_specific_data, h, hd, hc, truthyStr_none]

/-- Witness for C7: with both `dns` and `command` supplied, `dns` wins; with
none supplied, `MissingIndicator` is raised. -/
theorem c7_indicator_precedence_witness :
    (get_specific_data [("c".data, [c3dnsEvent])] "c".data (some "x.com".data)
        (some "/bin/ls".data) none 50 0
      = get_specific_data [("c".data, [c3dnsEvent])] "c".data (some "x.com".data) none none 50 0)
      ∧ get_specific_data [("c".data, [c3dnsEvent])] "c".data none none none 50 0
          = .error .missingIndicator := by
  have h := c7_indicator_precedence [("c".data, [c3dnsEvent])] "c".data (some "x.com".data)
    (some "/bin/ls".data) none 50 0 [c3dnsEvent] (by decide)
  have h2 := c7_indicator_precedence [("c".data, [c3dnsEvent])] "c".data none none none 50 0
    [c3dnsEvent] (by decide)
  exact ⟨h.2.1 (by decide), h2.1 (by decide)⟩

/-- Claim C3 (code bug): the drill-down projections are not uniform across
indicator kinds.  On a DNS-request event that carries `parentProcessId = 7`,
the `dns` branch's returned record has no `parent_process_id` field at all,
while the `command` branch's record for an exec event does expose it. -/
theorem c3_dns_projection_omits_parent_pid :
    get_specific_data [("c".data, [c3dnsEvent, mkExecEvent 1])] "c".data
        (some "x.com".data) none none 50 0
      = .ok (wrapSpecific "dns_calls".data "x.com".data [projDns c3dnsEvent])
      ∧ jGet c3dnsEvent "parentProcessId".data = .num 7
      ∧ getField (projDns c3dnsEvent) "parent_process_id".data = none
      ∧ get_specific_data [("c".data, [c3dnsEvent, mkExecEvent 1])] "c".data
          none (some "/bin/ls".data) none 50 0
        = .ok (wrapSpecific "command_calls".data "/bin/ls".data [projCommand (mkExecEvent 1)])
      ∧ getField (projCommand (mkExecEvent 1)) "parent_process_id".data = some (.num 7) := by
  decide

/-- Claim C4 counterexample: one file-open event with two `pathname`
argument pairs of value `/a` contributes TWO occurrences to the `/a` group
of `file_access` — the unwind-based aggregation counts every matching pair,
not only the first. -/
theorem c4_duplicate_pathname_counted_twice :
    (get_stats [("c".data, [c4openatEvent])] "c".data).map (fun r => r.total_events) = .ok 1
      ∧ (get_stats [("c".data, [c4openatEvent])] "c".data).map (fun r => r.file_access)
          = .ok [(.str "/a".data, 2)] := by
  decide

/-- Claim C5 counterexample: a collection whose only file-open event has a
numeric `pathname` value makes `get_stats` raise a Python `TypeError`
(inside `any(s in path ...)`), so no `risk_flags` sequence is returned at
all for this collection. -/
theorem c5_nonstring_path_key_aborts_stats :
    get_stats [("c".data, [c5openatEvent])] "c".data = .error .pyTypeError := by
  decide

/-- Claim C6 counterexample: for a connect event with
`addr = {ip: "10.0.0.1", port: 0}` the port IS present, yet the group key
is just `"10.0.0.1"` — the source tests `if port:` (truthiness), not port
presence, and 0 is falsy. -/
theorem c6_port_zero_key_drops_port :
    (get_stats
        [("c".data,
          [connectEvent (.obj [("ip".data, .str "10.0.0.1".data), ("port".data, .num 0)])])]
        "c".data).map (fun r => r.ips)
      = .ok [(.str "10.0.0.1".data, 1)] := by
  decide

/-- Claim C8 counterexample: with `limit = 0` the drill-down does not
return "at most limit" records — pymongo treats `limit(0)` as "no limit",
so one matching exec event is returned even though the limit is zero. -/
theorem c8_limit_zero_returns_all :
    get_specific_data [("c".data, [mkExecEvent 1])] "c".data none (some "/bin/ls".data) none 0 0
      = .ok (wrapSpecific "command_calls".data "/bin/ls".data [projCommand (mkExecEvent 1)])
      ∧ [projCommand (mkExecEvent 1)].length = 1 := by
  decide

/-- Claim C2 (code bug): a stream with N = 1 well-formed line and M = 1
malformed line — here a line that is not decodable UTF-8 — does not yield
`insertedCount = 1`: `chunk.decode("utf-8")` raises an uncaught
`UnicodeDecodeError`, so the malformed line aborts the whole upload
instead of being silently dropped. -/
theorem c2_malformed_line_aborts_upload :
    bytesLines c2Bytes = [asciiBytes "\x7b\"a\":1\x7d".data, [255]]
      ∧ (decodeUtf8 (asciiBytes "\x7b\"a\":1\x7d".data)).map wellFormedLine = some true
      ∧ decodeUtf8 [255] = none
      ∧ upload_tracee "trace.jsonl".data c2Bytes = .error .decodeError := by
  decide


theorem filter_flatMap_eq {α β : Type} (l : List α) (f : α → List β) (q : β → Bool) :
    (l.flatMap f).filter q = l.flatMap (fun a => (f a).filter q) := by
  induction l with
  | nil => rfl
  | cons x xs ih => simp [List.flatMap_cons, List.filter_append, ih]

theorem map_flatMap_eq {α β γ : Type} (l : List α) (f : α → List β) (g : β → γ) :
    (l.flatMap f).map g = l.flatMap (fun a => (f a).map g) := by
  induction l with
  | nil => rfl
  | cons x xs ih => simp [List.flatMap_cons, List.map_append, ih]

theorem count_flatMap_eq {α : Type} (l : List α) (f : α → List Json) (v : Json) :
    ((l.flatMap f).count v) = (l.map (fun a => (f a).count v)).sum := by
  induction l with
  | nil => rfl
  | cons x xs ih => simp [List.flatMap_cons, List.count_append, ih]

theorem flatMap_congr_mem {α β : Type} (l : List α) (f g : α → List β)
    (h : ∀ a ∈ l, f a = g a) : l.flatMap f = l.flatMap g := by
  induction l with
  | nil => rfl
  | cons x xs ih =>
    simp only [List.flatMap_cons]
    rw [h x (List.mem_cons_self x xs), ih (fun a ha => h a (List.mem_cons_of_mem x ha))]

theorem insertByCount_perm (x : Json × Nat) (l : List (Json × Nat)) :
    (insertByCount x l).Perm (x :: l) := by
  induction l with
  | nil => exact List.Perm.refl _
  | cons y ys ih =>
    unfold insertByCount
    by_cases h : x.2 < y.2
    · simp only [if_pos h]
      exact (ih.cons y).trans (List.Perm.swap x y ys)
    · simp only [if_neg h]
      exact List.Perm.refl _

theorem sortCountDesc_perm (l : List (Json × Nat)) : (sortCountDesc l).Perm l := by
  induction l with
  | nil => exact List.Perm.refl _
  | cons x xs ih => exact (insertByCount_perm x (sortCountDesc xs)).trans (ih.cons x)

theorem mem_firstOccs (a : Json) (l : List Json) : a ∈ firstOccs l ↔ a ∈ l := by
  induction l with
  | nil => simp [firstOccs]
  | cons k rest ih =>
    simp only [firstOccs, List.mem_cons, List.mem_filter, ih, decide_eq_true_eq]
    constructor
    · rintro (rfl | ⟨hm, _⟩)
      · exact Or.inl rfl
      · exact Or.inr hm
    · rintro (rfl | hm)
      · exact Or.inl rfl
      · by_cases hk : a = k
        · exact Or.inl hk
        · exact Or.inr ⟨hm, hk⟩

theorem firstOccs_nodup (l : List Json) : (firstOccs l).Nodup := by
  induction l with
  | nil => exact List.nodup_nil
  | cons k rest ih =>
    refine List.nodup_cons.mpr ⟨?_, ih.filter _⟩
    intro hk
    have := (List.mem_filter.mp hk).2
    simp at this

theorem groupCount_keys (keys : List Json) :
    (groupCount keys).map Prod.fst = firstOccs keys := by
  simp [groupCount, List.map_map, Function.comp_def]

theorem groupCount_nodupkeys (keys : List Json) :
    ((groupCount keys).map Prod.fst).Nodup := by
  rw [groupCount_keys]; exact firstOccs_nodup keys

theorem mem_groupCount (keys : List Json) (k : Json) (n : Nat) :
    (k, n) ∈ groupCount keys ↔ k ∈ keys ∧ n = keys.count k := by
  simp only [groupCount, List.mem_map, Prod.mk.injEq]
  constructor
  · rintro ⟨a, ha, rfl, rfl⟩
    exact ⟨(mem_firstOccs a keys).mp ha, rfl⟩
  · rintro ⟨hk, rfl⟩
    exact ⟨k, (mem_firstOccs k keys).mpr hk, rfl, rfl⟩

theorem dictGet_some_iff (l : List (Json × Nat)) (h : (l.map Prod.fst).Nodup)
    (k : Json) (n : Nat) : dictGet l k = some n ↔ (k, n) ∈ l := by
  induction l with
  | nil => simp [dictGet]
  | cons kv rest ih =>
    obtain ⟨k2, v2⟩ := kv
    rw [List.map_cons] at h
    have hnd := List.nodup_cons.mp h
    by_cases h2 : k2 = k
    · subst h2
      have hfind : dictGet ((k2, v2) :: rest) k2 = some v2 := by
        have : (fun kv : Json × Nat => decide (kv.1 = k2)) (k2, v2) = true := by simp
        simp [dictGet, List.find?_cons_of_pos _ this]
      rw [hfind]
      constructor
      · intro h3
        injection h3 with h3
        rw [← h3]
        exact List.mem_cons_self _ _
      · intro h3
        rcases List.mem_cons.mp h3 with h4 | h4
        · injection h4 with _ h5
          rw [h5]
        · exact absurd (by simpa using List.mem_map_of_mem Prod.fst h4) hnd.1
    · have hstep : dictGet ((k2, v2) :: rest) k = dictGet rest k := by
        simp [dictGet, List.find?, h2]
      rw [hstep, ih hnd.2]
      constructor
      · exact fun h3 => List.mem_cons_of_mem _ h3
      · intro h3
        rcases List.mem_cons.mp h3 with h4 | h4
        · exact absurd (Prod.ext_iff.mp h4).1.symm h2
        · exact h4

theorem dictGet_none_iff (l : List (Json × Nat)) (k : Json) :
    dictGet l k = none ↔ ∀ kv ∈ l, kv.1 ≠ k := by
  simp [dictGet, List.find?_eq_none]

theorem dictGet_of_perm (l l2 : List (Json × Nat)) (hp : l.Perm l2)
    (h : (l.map Prod.fst).Nodup) (k : Json) : dictGet l k = dictGet l2 k := by
  have h2 : (l2.map Prod.fst).Nodup := ((hp.map Prod.fst).nodup_iff).mp h
  cases hd : dictGet l k with
  | some n =>
    exact ((dictGet_some_iff l2 h2 k n).mpr (hp.subset ((dictGet_some_iff l h k n).mp hd))).symm
  | none =>
    refine ((dictGet_none_iff l2 k).mpr ?_).symm
    intro kv hkv
    exact (dictGet_none_iff l k).mp hd kv (hp.symm.subset hkv)

theorem dictInsert_append (k : Json) (v : Nat) (acc : List (Json × Nat))
    (h : ∀ kv ∈ acc, kv.1 ≠ k) : dictInsert k v acc = acc ++ [(k, v)] := by
  induction acc with
  | nil => rfl
  | cons kv rest ih =>
    obtain ⟨k2, v2⟩ := kv
    have hne : k2 ≠ k := h (k2, v2) (List.mem_cons_self _ _)
    simp only [dictInsert, if_neg hne, List.cons_append]
    rw [ih (fun kv2 hkv2 => h kv2 (List.mem_cons_of_mem _ hkv2))]

theorem pyDictFold_eq (l : List (Json × Nat)) :
    ∀ acc : List (Json × Nat), (∀ kv ∈ l, ∀ kv2 ∈ acc, kv2.1 ≠ kv.1) →
      ((l.map Prod.fst).Nodup) →
      l.foldl (fun d kv => dictInsert kv.1 kv.2 d) acc = acc ++ l := by
  induction l with
  | nil => intro acc _ _; simp
  | cons kv rest ih =>
    intro acc hdisj hnd
    obtain ⟨k, v⟩ := kv
    rw [List.map_cons] at hnd
    have hnd2 := List.nodup_cons.mp hnd
    simp only [List.foldl_cons]
    have hins : dictInsert k v acc = acc ++ [(k, v)] :=
      dictInsert_append k v acc (fun kv2 hkv2 => hdisj (k, v) (List.mem_cons_self _ _) kv2 hkv2)
    rw [hins]
    have hdisj2 : ∀ kv2 ∈ rest, ∀ kv3 ∈ acc ++ [(k, v)], kv3.1 ≠ kv2.1 := by
      intro kv2 hkv2 kv3 hkv3
      rcases List.mem_append.mp hkv3 with h3 | h3
      · exact hdisj kv2 (List.mem_cons_of_mem _ hkv2) kv3 h3
      · have h4 : kv3 = (k, v) := by simpa using h3
        subst h4
        intro hc
        apply hnd2.1
        rw [hc]
        exact List.mem_map_of_mem Prod.fst hkv2
    rw [ih (acc ++ [(k, v)]) hdisj2 hnd2.2]
    simp

theorem pyDictOf_eq_self (l : List (Json × Nat)) (hl : (l.map Prod.fst).Nodup) :
    pyDictOf l = l := by
  have := pyDictFold_eq l [] (by simp) hl
  simpa [pyDictOf] using this

theorem dictGet_groupSort (keys : List Json) (k : Json) :
    dictGet (pyDictOf (groupSortByCount keys)) k
      = if keys.count k = 0 then none else some (keys.count k) := by
  have hperm := sortCountDesc_perm (groupCount keys)
  have hnd := groupCount_nodupkeys keys
  have hnd2 : ((sortCountDesc (groupCount keys)).map Prod.fst).Nodup :=
    ((hperm.map Prod.fst).nodup_iff).mpr hnd
  rw [groupSortByCount, pyDictOf_eq_self _ hnd2, dictGet_of_perm _ _ hperm hnd2 k]
  by_cases hk : k ∈ keys
  · have h1 : dictGet (groupCount keys) k = some (keys.count k) :=
      (dictGet_some_iff _ hnd k _).mpr ((mem_groupCount keys k _).mpr ⟨hk, rfl⟩)
    rw [h1, if_neg (List.count_pos_iff.mpr hk).ne']
  · have hc : keys.count k = 0 := List.count_eq_zero.mpr hk
    rw [if_pos hc]
    refine (dictGet_none_iff _ k).mpr ?_
    intro kv hkv hc2
    apply hk
    have h5 : kv.1 ∈ (groupCount keys).map Prod.fst := List.mem_map_of_mem Prod.fst hkv
    rw [groupCount_keys] at h5
    exact hc2 ▸ (mem_firstOccs kv.1 keys).mp h5

theorem jLookup_setFieldList_same (fs : List (Str × Json)) (k : Str) (x : Json) :
    jLookup (setFieldList fs k x) k = some x := by
  induction fs with
  | nil => simp [setFieldList, jLookup]
  | cons kv rest ih =>
    obtain ⟨k2, v⟩ := kv
    by_cases h : k2 = k
    · simp [setFieldList, jLookup, h]
    · simp [setFieldList, jLookup, h, ih]

theorem getPath_setField (fs : List (Str × Json)) (k : Str) (x : Json) (ks : List Str) :
    getPath (setField (.obj fs) k x) (k :: ks) = getPath x ks := by
  simp [setField, getPath, getField, jLookup_setFieldList_same]

theorem perDoc_unwind (arg : Str) (d : Json) (hd : argsOkB d = true) :
    ((unwindField "args".data d).filter
        (fun d2 => matchPathEqJ d2 ["args".data, "name".data] (.str arg))).map
      (fun d2 => (getPath d2 ["args".data, "value".data]).getD .null)
    = argPairValues arg d := by
  cases d with
  | obj fs =>
    unfold unwindField argPairValues
    cases haf : getField (Json.obj fs) "args".data with
    | none => simp
    | some a =>
      cases a with
      | arr xs =>
        simp only []
        rw [List.filter_map, List.map_map]
        have hfq :
            ((fun d2 => matchPathEqJ d2 ["args".data, "name".data] (.str arg)) ∘
                (fun x => setField (Json.obj fs) "args".data x))
              = fun el => matchPathEqJ el ["name".data] (.str arg) := by
          funext el
          simp only [Function.comp, matchPathEqJ, getPath_setField]
        have hfv :
            ((fun d2 => (getPath d2 ["args".data, "value".data]).getD .null) ∘
                (fun x => setField (Json.obj fs) "args".data x))
              = fun el => (getPath el ["value".data]).getD .null := by
          funext el
          simp only [Function.comp, getPath_setField]
        rw [hfq, hfv]
      | null => simp
      | bool b => simp [argsOkB, haf] at hd
      | num n => simp [argsOkB, haf] at hd
      | str s => simp [argsOkB, haf] at hd
      | obj gs => simp [argsOkB, haf] at hd
  | null => simp [unwindField, argPairValues, getField]
  | bool b => simp [unwindField, argPairValues, getField]
  | num n => simp [unwindField, argPairValues, getField]
  | str s => simp [unwindField, argPairValues, getField]
  | arr xs => simp [unwindField, argPairValues, getField]

theorem argValueKeys_eq_flat (ev arg : Str) (docs : List Json)
    (h : ∀ d ∈ docs, argsOkB d = true) :
    argValueKeys ev arg docs
      = (docs.filter (fun d => matchPathEqJ d ["eventName".data] (.str ev))).flatMap
          (argPairValues arg) := by
  unfold argValueKeys
  rw [filter_flatMap_eq, map_flatMap_eq]
  refine flatMap_congr_mem _ _ _ ?_
  intro d hdm
  exact perDoc_unwind arg d (h d (List.mem_of_mem_filter hdm))

theorem count_argValueKeys (ev arg : Str) (v : Json) (docs : List Json)
    (h : ∀ d ∈ docs, argsOkB d = true) :
    (argValueKeys ev arg docs).count v = perPairCount ev arg v docs := by
  rw [argValueKeys_eq_flat ev arg docs h, count_flatMap_eq]
  rfl

theorem pyDictFoldE_ok_eq (l : List (Json × Nat)) :
    ∀ acc d, pyDictFoldE acc l = .ok d →
      d = l.foldl (fun d2 kv => dictInsert kv.1 kv.2 d2) acc := by
  induction l with
  | nil =>
    intro acc d h
    injection h with h2
    exact h2.symm
  | cons kv rest ih =>
    intro acc d h
    obtain ⟨k, v⟩ := kv
    simp only [pyDictFoldE] at h
    by_cases hk : pyHashable k = true
    · rw [if_pos hk] at h
      rw [List.foldl_cons]
      exact ih _ _ h
    · rw [if_neg hk] at h
      exact absurd h (by simp)

theorem pyDictOfE_ok_eq (l d : List (Json × Nat)) (h : pyDictOfE l = .ok d) :
    d = pyDictOf l :=
  pyDictFoldE_ok_eq l [] d h

theorem statsOfDocs_ok_inv (name : Str) (docs : List Json) (r : StatsReport)
    (h : statsOfDocs name docs = .ok r) :
    r.file_access = pyDictOf (fileResults docs)
      ∧ r.executed_commands = pyDictOf (execResults docs)
      ∧ ∃ sens shell ips procfs,
          filterE (fun kv => pyAnyE (fun s => pyInE s kv.1) SENSITIVE_PATHS)
              (pyDictOf (fileResults docs)) = .ok sens
            ∧ pyAnyE (fun kv => pyAnyE (fun sh => pyInE sh kv.1) SHELL_BINARIES)
                (pyDictOf (execResults docs)) = .ok shell
            ∧ ipUsageE (ipResults docs) = .ok ips
            ∧ pyAnyE (fun kv => pyInE "/proc".data kv.1) (pyDictOf (fileResults docs)) = .ok procfs
            ∧ r.ips = ips
            ∧ r.risk_flags =
                (if sens.isEmpty then [] else ["sensitive_file_access".data])
                  ++ (if shell then ["shell_spawned".data] else [])
                  ++ (if ips.isEmpty then [] else ["network_activity".data])
                  ++ (if procfs then ["procfs_access".data] else []) := by
  simp only [statsOfDocs] at h
  cases hsys : pyDictOfE (groupSortByCount (syscallKeys docs)) with
  | error e => rw [hsys] at h; simp at h
  | ok syscalls =>
    rw [hsys] at h
    simp only [] at h
    cases hfad : pyDictOfE (fileResults docs) with
    | error e => rw [hfad] at h; simp at h
    | ok fa =>
      rw [hfad] at h
      have hfa3 : fa = pyDictOf (fileResults docs) := pyDictOfE_ok_eq _ _ hfad
      subst hfa3
      simp only [] at h
      cases hsens : filterE (fun kv => pyAnyE (fun s => pyInE s kv.1) SENSITIVE_PATHS)
          (pyDictOf (fileResults docs)) with
      | error e => rw [hsens] at h; simp at h
      | ok sens =>
        rw [hsens] at h
        simp only [] at h
        cases hecd : pyDictOfE (execResults docs) with
        | error e => rw [hecd] at h; simp at h
        | ok ec =>
          rw [hecd] at h
          have hec3 : ec = pyDictOf (execResults docs) := pyDictOfE_ok_eq _ _ hecd
          subst hec3
          simp only [] at h
          cases hshell : pyAnyE (fun kv => pyAnyE (fun sh => pyInE sh kv.1) SHELL_BINARIES)
              (pyDictOf (execResults docs)) with
          | error e => rw [hshell] at h; simp at h
          | ok shell =>
            rw [hshell] at h
            simp only [] at h
            cases hips : ipUsageE (ipResults docs) with
            | error e => rw [hips] at h; simp at h
            | ok ips =>
              rw [hips] at h
              simp only [] at h
              cases hdnsd : pyDictOfE (dnsResults docs) with
              | error e => rw [hdnsd] at h; simp at h
              | ok dnsm =>
                rw [hdnsd] at h
                simp only [] at h
                cases hproc : pyAnyE (fun kv => pyInE "/proc".data kv.1)
                    (pyDictOf (fileResults docs)) with
                | error e => rw [hproc] at h; simp at h
                | ok procfs =>
                  rw [hproc] at h
                  injection h with h2
                  subst h2
                  exact ⟨rfl, rfl, sens, shell, ips, procfs, rfl, rfl, rfl, rfl, rfl, rfl⟩

/-- Claim C4 (amended): one occurrence per matching `(event, pair)` — for
every collection whose documents keep `args` as an array (or null/absent),
the `file_access` count for a key `v` is the total number of `pathname`
pairs valued `v` across all openat events; an event with k duplicate
`pathname` pairs contributes k, not 1. -/
theorem c4_unwind_counts_every_matching_pair (db : Db) (name : Str) (docs : List Json)
    (r : StatsReport) (v : Json) (hdb : dbLookup db name = some docs)
    (h : get_stats db name = .ok r) (hargs : ∀ d ∈ docs, argsOkB d = true) :
    dictGet r.file_access v
      = if perPairCount "openat".data "pathname".data v docs = 0 then none
        else some (perPairCount "openat".data "pathname".data v docs) := by
  simp only [get_stats, hdb] at h
  obtain ⟨hfa, -⟩ := statsOfDocs_ok_inv name docs r h
  rw [hfa]
  rw [show fileResults docs
      = groupSortByCount (argValueKeys "openat".data "pathname".data docs) from rfl]
  rw [dictGet_groupSort, count_argValueKeys _ _ _ _ hargs]

/-- Witness for C4 at the duplicate-pathname event: the per-pair total is 2
and so is the stored `file_access` count. -/
theorem c4_unwind_counts_witness :
    dictGet c4Report.file_access (.str "/a".data) = some 2
      ∧ perPairCount "openat".data "pathname".data (.str "/a".data) [c4openatEvent] = 2 := by
  have h := c4_unwind_counts_every_matching_pair [("c".data, [c4openatEvent])] "c".data
    [c4openatEvent] c4Report (.str "/a".data) (by decide) (by decide) (by decide)
  exact ⟨by rw [h]; decide, by decide⟩

theorem pyAnyE_cons_true {α : Type} (f : α → Except StatsError Bool) (x : α) (l : List α)
    (h : f x = .ok true) : pyAnyE f (x :: l) = .ok true := by
  simp only [pyAnyE, h]

theorem pyAnyE_cons_false {α : Type} (f : α → Except StatsError Bool) (x : α) (l : List α)
    (h : f x = .ok false) : pyAnyE f (x :: l) = pyAnyE f l := by
  simp only [pyAnyE, h]

theorem pyAnyE_contains_of_str (paths : List Str) (t : Str) :
    pyAnyE (fun s => pyInE s (.str t)) paths
      = .ok (paths.any (fun s => containsSub s t)) := by
  induction paths with
  | nil => rfl
  | cons p ps ih =>
    cases hb : containsSub p t with
    | true =>
      rw [pyAnyE_cons_true _ p ps
        (by rw [show pyInE p (Json.str t) = .ok (containsSub p t) from rfl, hb])]
      simp [hb]
    | false =>
      rw [pyAnyE_cons_false _ p ps
        (by rw [show pyInE p (Json.str t) = .ok (containsSub p t) from rfl, hb]), ih]
      simp [hb]

theorem filterE_contains_of_str (paths : List Str) (fa : List (Json × Nat))
    (h : ∀ kv ∈ fa, isJStr kv.1 = true) :
    filterE (fun kv => pyAnyE (fun s => pyInE s kv.1) paths) fa
      = .ok (fa.filter (fun kv => paths.any (fun s => jContains s kv.1))) := by
  induction fa with
  | nil => rfl
  | cons kv rest ih =>
    obtain ⟨k, c⟩ := kv
    have hk := h (k, c) (List.mem_cons_self _ _)
    cases k with
    | str t =>
      have ihr := ih (fun kv2 hkv2 => h kv2 (List.mem_cons_of_mem _ hkv2))
      simp only [filterE, pyAnyE_contains_of_str, ihr, jContains, List.filter_cons]
    | null => simp [isJStr] at hk
    | bool b => simp [isJStr] at hk
    | num n => simp [isJStr] at hk
    | arr xs => simp [isJStr] at hk
    | obj fs => simp [isJStr] at hk

theorem pyAnyE_nested_of_str (paths : List Str) (ec : List (Json × Nat))
    (h : ∀ kv ∈ ec, isJStr kv.1 = true) :
    pyAnyE (fun kv => pyAnyE (fun sh => pyInE sh kv.1) paths) ec
      = .ok (ec.any (fun kv => paths.any (fun sh => jContains sh kv.1))) := by
  induction ec with
  | nil => rfl
  | cons kv rest ih =>
    obtain ⟨k, c⟩ := kv
    have hk := h (k, c) (List.mem_cons_self _ _)
    cases k with
    | str t =>
      have ihr := ih (fun kv2 hkv2 => h kv2 (List.mem_cons_of_mem _ hkv2))
      cases hb : paths.any (fun s => containsSub s t) with
      | true =>
        rw [pyAnyE_cons_true _ _ rest (by rw [pyAnyE_contains_of_str, hb])]
        simp [jContains, hb]
      | false =>
        rw [pyAnyE_cons_false _ _ rest (by rw [pyAnyE_contains_of_str, hb]), ihr]
        simp [jContains, hb]
    | null => simp [isJStr] at hk
    | bool b => simp [isJStr] at hk
    | num n => simp [isJStr] at hk
    | arr xs => simp [isJStr] at hk
    | obj fs => simp [isJStr] at hk

theorem pyAnyE_single_of_str (needle : Str) (fa : List (Json × Nat))
    (h : ∀ kv ∈ fa, isJStr kv.1 = true) :
    pyAnyE (fun kv => pyInE needle kv.1) fa
      = .ok (fa.any (fun kv => jContains needle kv.1)) := by
  induction fa with
  | nil => rfl
  | cons kv rest ih =>
    obtain ⟨k, c⟩ := kv
    have hk := h (k, c) (List.mem_cons_self _ _)
    cases k with
    | str t =>
      have ihr := ih (fun kv2 hkv2 => h kv2 (List.mem_cons_of_mem _ hkv2))
      cases hb : containsSub needle t with
      | true =>
        rw [pyAnyE_cons_true _ _ rest
          (by rw [show pyInE needle (Json.str t, c).1 = .ok (containsSub needle t) from rfl, hb])]
        simp [jContains, hb]
      | false =>
        rw [pyAnyE_cons_false _ _ rest
          (by rw [show pyInE needle (Json.str t, c).1 = .ok (containsSub needle t) from rfl, hb]),
          ihr]
        simp [jContains, hb]
    | null => simp [isJStr] at hk
    | bool b => simp [isJStr] at hk
    | num n => simp [isJStr] at hk
    | arr xs => simp [isJStr] at hk
    | obj fs => simp [isJStr] at hk

theorem isEmpty_filter_eq {α : Type} (l : List α) (p : α → Bool) :
    (l.filter p).isEmpty = !l.any p := by
  induction l with
  | nil => rfl
  | cons x xs ih =>
    cases hp : p x with
    | true => simp [List.filter_cons, hp]
    | false => simp [List.filter_cons, hp, ih]

/-- Claim C5 (amended): whenever `ComputeStats` succeeds and the
`file_access` and `executed_commands` keys are strings (a non-string key
aborts stats with a `TypeError` instead), `risk_flags` is exactly the
fixed-order sequence: `sensitive_file_access` iff some file key contains a
sensitive path, then `shell_spawned` iff some command key contains a shell
binary, then `network_activity` iff the ip map is non-empty, then
`procfs_access` iff some file key contains `/proc`. -/
theorem c5_risk_flags_ordered (db : Db) (name : Str) (docs : List Json) (r : StatsReport)
    (hdb : dbLookup db name = some docs) (h : get_stats db name = .ok r)
    (hfa : ∀ kv ∈ r.file_access, isJStr kv.1 = true)
    (hec : ∀ kv ∈ r.executed_commands, isJStr kv.1 = true) :
    r.risk_flags =
      (if r.file_access.any (fun kv => SENSITIVE_PATHS.any (fun s => jContains s kv.1))
        then ["sensitive_file_access".data] else [])
        ++ (if r.executed_commands.any (fun kv => SHELL_BINARIES.any (fun sh => jContains sh kv.1))
            then ["shell_spawned".data] else [])
        ++ (if r.ips.isEmpty then [] else ["network_activity".data])
        ++ (if r.file_access.any (fun kv => jContains "/proc".data kv.1)
            then ["procfs_access".data] else []) := by
  simp only [get_stats, hdb] at h
  obtain ⟨hfa2, hec2, sens, shell, ips, procfs, hsens, hshell, hips, hproc, hips2, hflags⟩ :=
    statsOfDocs_ok_inv name docs r h
  rw [← hfa2] at hsens hproc
  rw [← hec2] at hshell
  rw [filterE_contains_of_str _ _ hfa] at hsens
  rw [pyAnyE_nested_of_str _ _ hec] at hshell
  rw [pyAnyE_single_of_str _ _ hfa] at hproc
  injection hsens with hsens
  injection hshell with hshell
  injection hproc with hproc
  rw [hflags, ← hsens, ← hshell, ← hproc, ← hips2, isEmpty_filter_eq]
  cases hA : r.file_access.any (fun kv => SENSITIVE_PATHS.any (fun s => jContains s kv.1)) <;>
    simp [hA]

/-- Witness for C5 at a collection with one `/etc/passwd` file-open event:
stats succeed, all keys are strings, and the flags are exactly
`["sensitive_file_access"]`. -/
theorem c5_risk_flags_witness :
    get_stats [("c".data, [openatPasswdEvent])] "c".data = .ok c5Report
      ∧ c5Report.risk_flags = ["sensitive_file_access".data] := by
  have h := c5_risk_flags_ordered [("c".data, [openatPasswdEvent])] "c".data
    [openatPasswdEvent] c5Report (by decide) (by decide) (by decide) (by decide)
  exact ⟨by decide, h.trans (by decide)⟩

/-- Claim C6 (amended): for a collection holding one connect event with
`addr` value `a`, the ip-usage map is `{key(a): 1}` where `key(a)` is the
normalization computed by the source: for a dict, `"ip:port"` when the
port is present AND truthy (so not for port 0 or an empty/absent port),
else the raw `ip` value; for a non-dict, `str(a)`. -/
theorem c6_ip_key_normalization (db : Db) (name : Str) (a k : Json)
    (hdb : dbLookup db name = some [connectEvent a]) (hk : ipKeyE a = .ok k) :
    (get_stats db name).map (fun r => r.ips) = .ok [(k, 1)] := by
  simp only [get_stats, hdb]
  have hcount : List.count a [a] = 1 := by simp
  have hip : ipResults [connectEvent a] = [(a, 1)] := by
    rw [ipResults,
      show argValueKeys "connect".data "addr".data [connectEvent a] = [a] from rfl]
    simp [groupSortByCount, groupCount, firstOccs, hcount, sortCountDesc, insertByCount]
  have hfold : ipUsageE (ipResults [connectEvent a]) = .ok [(k, 1)] := by
    rw [hip]
    simp [ipUsageE, ipUsageFold, hk, dictInsert]
  simp only [statsOfDocs]
  rw [hfold]
  rfl

/-- Witness for C6 at the spec's example: `addr = {ip: "10.0.0.1",
port: 443}` yields the key `"10.0.0.1:443"` with count 1. -/
theorem c6_ip_key_normalization_witness :
    (get_stats
        [("c".data,
          [connectEvent (.obj [("ip".data, .str "10.0.0.1".data), ("port".data, .num 443)])])]
        "c".data).map (fun r => r.ips)
      = .ok [(.str "10.0.0.1:443".data, 1)] :=
  c6_ip_key_normalization _ _ _ _ rfl (by decide)

theorem execPathOfE_ok (e : Json) (h : executableOkB e = true) :
    execPathOfE e = .ok (execPathOf e) := by
  unfold executableOkB at h
  unfold execPathOfE execPathOf
  revert h
  cases hf : getField e "executable".data with
  | none => intro _; rfl
  | some v =>
    cases v with
    | obj fs => intro _; rfl
    | null => intro h2; simp at h2
    | bool b => intro h2; simp at h2
    | num n => intro h2; simp at h2
    | str s => intro h2; simp at h2
    | arr xs => intro h2; simp at h2

theorem projDnsE_ok (e : Json) (h : executableOkB e = true) :
    projDnsE e = .ok (projDns e) := by
  unfold projDnsE
  rw [execPathOfE_ok e h]
  rfl

theorem projCommandE_ok (e : Json) (h : executableOkB e = true) :
    projCommandE e = .ok (projCommand e) := by
  unfold projCommandE
  rw [execPathOfE_ok e h]
  rfl

theorem projFileE_ok (e : Json) (h : executableOkB e = true) :
    projFileE e = .ok (projFile e) := by
  unfold projFileE
  rw [execPathOfE_ok e h]
  rfl

theorem projListE_map_ok (f : Json → Except SpecificError Json) (g : Json → Json)
    (l : List Json) (h : ∀ e ∈ l, f e = .ok (g e)) :
    projListE f l = .ok (l.map g) := by
  induction l with
  | nil => rfl
  | cons x xs ih =>
    simp only [projListE]
    rw [h x (List.mem_cons_self _ _), ih (fun e he => h e (List.mem_cons_of_mem _ he))]
    rfl

/-- Claim C8 (amended): for every drill-down query — any of the three
indicator kinds — whose selected page holds only events with an absent or
dict `executable` field (a present non-dict value instead raises an
uncaught `AttributeError` and no page is returned), the result is exactly
the projections, in stored order, of the page
`find(query).skip(offset).limit(limit)` of the matches; with a positive
limit the page after the skip holds at most `limit` records, the i-th
being the `(offset+i)`-th match, while `limit(0)` means "no limit"
(pymongo/MongoDB convention) and returns every match after the skip. -/
theorem c8_pagination_rule (db : Db) (name q : Str) (limit offset : Nat)
    (docs : List Json) (hdb : dbLookup db name = some docs) (hq : q ≠ []) :
    ((∀ e ∈ pageMatches (dnsEventMatch q) docs limit offset, executableOkB e = true) →
        get_specific_data db name (some q) none none limit offset
          = .ok (wrapSpecific "dns_calls".data q
              ((pageMatches (dnsEventMatch q) docs limit offset).map projDns)))
      ∧ ((∀ e ∈ pageMatches (commandEventMatch q) docs limit offset, executableOkB e = true) →
          get_specific_data db name none (some q) none limit offset
            = .ok (wrapSpecific "command_calls".data q
                ((pageMatches (commandEventMatch q) docs limit offset).map projCommand)))
      ∧ ((∀ e ∈ pageMatches (fileEventMatch q) docs limit offset, executableOkB e = true) →
          get_specific_data db name none none (some q) limit offset
            = .ok (wrapSpecific "file_access".data q
                ((pageMatches (fileEventMatch q) docs limit offset).map projFile)))
      ∧ (1 ≤ limit → ∀ m : Json → Bool,
          (pageMatches m docs limit offset).length ≤ limit
            ∧ ∀ i, i < limit →
                (pageMatches m docs limit offset)[i]? = (docs.filter m)[offset + i]?)
      ∧ (limit = 0 → ∀ m : Json → Bool,
          pageMatches m docs limit offset = (docs.filter m).drop offset) := by
  have ht : truthyStr (some q) = true := by simp [truthyStr, hq]
  refine ⟨fun hok => ?_, fun hok => ?_, fun hok => ?_, fun hlim m => ?_, fun h0 m => ?_⟩
  · simp only [get_specific_data, hdb, ht, if_true, Option.getD_some]
    rw [projListE_map_ok projDnsE projDns _ (fun e he => projDnsE_ok e (hok e he))]
  · simp only [get_specific_data, hdb, ht, truthyStr_none, if_true, if_false,
      Bool.false_eq_true, Option.getD_some]
    rw [projListE_map_ok projCommandE projCommand _ (fun e he => projCommandE_ok e (hok e he))]
  · simp only [get_specific_data, hdb, ht, truthyStr_none, if_true, if_false,
      Bool.false_eq_true, Option.getD_some]
    rw [projListE_map_ok projFileE projFile _ (fun e he => projFileE_ok e (hok e he))]
  · have hl0 : ¬ limit = 0 := by omega
    simp only [pageMatches, mongoLimit, if_neg hl0]
    refine ⟨?_, fun i hi => ?_⟩
    · rw [List.length_take]
      exact Nat.min_le_left _ _
    · rw [List.getElem?_take_of_lt hi, List.getElem?_drop]
  · subst h0
    simp [pageMatches, mongoLimit]

/-- Witness for C8 in the spec's five-exec-event example: `limit = 2,
offset = 1` returns exactly the projections of the matches at 0-based
stored indices 1 and 2, and `limit = 0` returns every match after the
skip (here four records). -/
theorem c8_pagination_rule_witness :
    get_specific_data c8db "c".data none (some "/bin/ls".data) none 2 1
        = .ok (wrapSpecific "command_calls".data "/bin/ls".data
            [projCommand (mkExecEvent 2), projCommand (mkExecEvent 3)])
      ∧ get_specific_data c8db "c".data none (some "/bin/ls".data) none 0 1
          = .ok (wrapSpecific "command_calls".data "/bin/ls".data
              [projCommand (mkExecEvent 2), projCommand (mkExecEvent 3),
                projCommand (mkExecEvent 4), projCommand (mkExecEvent 5)]) := by
  have h2 := (c8_pagination_rule c8db "c".data "/bin/ls".data 2 1
    [mkExecEvent 1, mkExecEvent 2, mkExecEvent 3, mkExecEvent 4, mkExecEvent 5]
    (by decide) (by decide)).2.1 (by decide)
  have h0 := (c8_pagination_rule c8db "c".data "/bin/ls".data 0 1
    [mkExecEvent 1, mkExecEvent 2, mkExecEvent 3, mkExecEvent 4, mkExecEvent 5]
    (by decide) (by decide)).2.1 (by decide)
  exact ⟨h2.trans (by decide), h0.trans (by decide)⟩

theorem decodeUtf8Aux_ascii_cons (f b : Nat) (hb : b < 128) (rest : List Nat) :
    decodeUtf8Aux (f + 1) (b :: rest)
      = (decodeUtf8Aux f rest).map (fun t => Char.ofNat b :: t) := by
  simp only [decodeUtf8Aux, if_pos hb]

theorem decodeUtf8Aux_replicate (n b : Nat) (hb : b < 128) (f : Nat) (rest : List Nat) :
    decodeUtf8Aux (n + f) (List.replicate n b ++ rest)
      = (decodeUtf8Aux f rest).map (fun t => List.replicate n (Char.ofNat b) ++ t) := by
  induction n with
  | zero =>
    simp only [List.replicate, List.nil_append, Nat.zero_add]
    cases decodeUtf8Aux f rest <;> simp
  | succ m ih =>
    rw [List.replicate_succ, List.cons_append,
      show m + 1 + f = (m + f) + 1 from by omega,
      decodeUtf8Aux_ascii_cons _ b hb, ih]
    cases decodeUtf8Aux f rest <;> simp [List.replicate_succ]

theorem decodeUtf8_replicate (n b : Nat) (hb : b < 128) (rest : List Nat) :
    decodeUtf8 (List.replicate n b ++ rest)
      = (decodeUtf8 rest).map (fun t => List.replicate n (Char.ofNat b) ++ t) := by
  unfold decodeUtf8
  rw [List.length_append, List.length_replicate,
    show n + rest.length + 1 = n + (rest.length + 1) from by omega]
  exact decodeUtf8Aux_replicate n b hb (rest.length + 1) rest

theorem splitOnNl_cons_nl (s : Str) : splitOnNl ('\n' :: s) = [] :: splitOnNl s := by
  simp [splitOnNl]

theorem splitOnNl_replicate (c : Char) (hc : c ≠ '\n') (s : Str) (p : Str) (tl : List Str)
    (h : splitOnNl s = p :: tl) (n : Nat) :
    splitOnNl (List.replicate n c ++ s) = (List.replicate n c ++ p) :: tl := by
  induction n with
  | zero => simpa using h
  | succ m ih =>
    rw [List.replicate_succ, List.cons_append]
    show splitOnNl (c :: (List.replicate m c ++ s)) = _
    simp only [splitOnNl, if_neg hc, ih]
    simp [List.replicate_succ]

theorem readChunksAux_nil (f : Nat) : readChunksAux f [] = [] := by
  cases f <;> rfl

theorem readChunksAux_small (f : Nat) (l : List Nat) (h : l.length ≤ 1048576) (hne : l ≠ []) :
    readChunksAux (f + 1) l = [l] := by
  cases l with
  | nil => exact absurd rfl hne
  | cons b bs =>
    simp only [readChunksAux]
    rw [List.take_of_length_le h, List.drop_eq_nil_of_le h, readChunksAux_nil]

theorem readChunksAux_step (f : Nat) (l : List Nat) (hne : l ≠ []) :
    readChunksAux (f + 1) l = l.take 1048576 :: readChunksAux f (l.drop 1048576) := by
  cases l with
  | nil => exact absurd rfl hne
  | cons b bs => rfl

theorem readChunks_two (a b : List Nat) (ha : a.length = 1048576) (hb : b ≠ [])
    (hble : b.length ≤ 1048576) : readChunks (a ++ b) = [a, b] := by
  have hne : a ++ b ≠ [] := by
    intro h
    exact hb (List.append_eq_nil.mp h).2
  unfold readChunks
  have hlen : (a ++ b).length = 1048576 + b.length := by rw [List.length_append, ha]
  rw [hlen, readChunksAux_step _ _ hne]
  rw [show (a ++ b).take 1048576 = a from by rw [← ha]; exact List.take_left a b]
  rw [show (a ++ b).drop 1048576 = b from by rw [← ha]; exact List.drop_left a b]
  rw [show 1048576 + b.length = (1048575 + b.length) + 1 from by omega]
  rw [readChunksAux_small _ _ hble hb]

theorem parseValue_x_cons (f : Nat) (l : Str) : parseValue (f + 1) ('x' :: l) = none := rfl

theorem parseJson_replicate_x (n : Nat) (hn : n ≠ 0) :
    parseJson (List.replicate n 'x') = none := by
  obtain ⟨m, rfl⟩ : ∃ m, n = m + 1 := ⟨n - 1, by omega⟩
  unfold parseJson
  rw [List.length_replicate, show 2 * (m + 1) + 2 = (2 * m + 3) + 1 from by ring,
    List.replicate_succ, parseValue_x_cons]

theorem pushLine_none (st : List Json × Nat) (line : Str) (h : parseJson line = none) :
    pushLine st line = st := by
  simp [pushLine, h]

theorem ingestChunks_cons_none (c : List Nat) (cs : List (List Nat)) (st : List Json × Nat)
    (h : decodeUtf8 c = none) : ingestChunks (c :: cs) st = .error .decodeError := by
  simp only [ingestChunks, h]

theorem ingestChunks_cons_some (c : List Nat) (cs : List (List Nat)) (st : List Json × Nat)
    (text : Str) (h : decodeUtf8 c = some text) :
    ingestChunks (c :: cs) st = ingestChunks cs (processLines st (splitlines text)) := by
  simp only [ingestChunks, h]

/-- Claim C10: ingestion is not total — on a stream that is valid UTF-8 as
a whole, but whose two-byte character straddles the 1 MiB chunk boundary,
`chunk.decode("utf-8")` raises an error that is neither the per-line
`JSONDecodeError` handling nor the caught `BulkWriteError`
(`IngestionFailed`), aborting the upload. -/
theorem c10_multibyte_chunk_boundary_decode_error :
    (decodeUtf8 c10Bytes).isSome = true
      ∧ upload_tracee "trace.jsonl".data c10Bytes = .error .decodeError := by
  constructor
  · rw [show c10Bytes = List.replicate 1048575 97 ++ [195, 169, 10] from rfl,
      decodeUtf8_replicate 1048575 97 (by omega) [195, 169, 10],
      show decodeUtf8 [195, 169, 10] = some ['é', '\n'] from by decide]
    rfl
  · have hchunks : readChunks c10Bytes = [List.replicate 1048575 97 ++ [195], [169, 10]] := by
      rw [show c10Bytes = (List.replicate 1048575 97 ++ [195]) ++ [169, 10] from by
        rw [List.append_assoc]; rfl]
      refine readChunks_two _ _ ?_ (by decide) (by decide)
      rw [List.length_append, List.length_replicate]
      rfl
    have hda : decodeUtf8 (List.replicate 1048575 97 ++ [195]) = none := by
      rw [decodeUtf8_replicate 1048575 97 (by omega) [195],
        show decodeUtf8 [195] = none from by decide]
      rfl
    have hing : ingestChunks (readChunks c10Bytes) ([], 0) = .error .decodeError := by
      rw [hchunks]
      exact ingestChunks_cons_none _ _ _ hda
    unfold upload_tracee
    rw [hing, show (!extensionOk "trace.jsonl".data) = false from by decide]
    rfl

/-- Claim C1 (code bug): on an upload whose only well-formed JSON line
spans the 1 MiB chunk boundary, the source splits each chunk independently
with no carry-over, so both fragments fail to parse and nothing is
inserted: the stream's lines contain exactly one well-formed line, yet
`documents_inserted` is 0 instead of 1. -/
theorem c1_chunk_boundary_line_dropped :
    (streamLines c1Bytes).map (List.countP wellFormedLine) = some 1
      ∧ upload_tracee "trace.jsonl".data c1Bytes = .ok 0 := by
  have hx : Char.ofNat 120 = 'x' := rfl
  have hpx : parseJson (List.replicate 1048570 'x') = none :=
    parseJson_replicate_x 1048570 (by omega)
  have hdecode : decodeUtf8 c1Bytes
      = some (List.replicate 1048570 'x' ++ "\n\x7b\"a\":1\x7d\n".data) := by
    rw [show c1Bytes = List.replicate 1048570 120 ++ asciiBytes "\n\x7b\"a\":1\x7d\n".data from by
        rw [show c1Bytes = List.replicate 1048570 120
            ++ (asciiBytes "\n\x7b\"a\":".data ++ asciiBytes "1\x7d\n".data) from by
          rw [← List.append_assoc]; rfl]
        rw [show asciiBytes "\n\x7b\"a\":".data ++ asciiBytes "1\x7d\n".data
            = asciiBytes "\n\x7b\"a\":1\x7d\n".data from by decide],
      decodeUtf8_replicate 1048570 120 (by omega) _,
      show decodeUtf8 (asciiBytes "\n\x7b\"a\":1\x7d\n".data)
          = some ("\n\x7b\"a\":1\x7d\n".data) from by decide, hx]
    rfl
  have hsplit : splitlines (List.replicate 1048570 'x' ++ "\n\x7b\"a\":1\x7d\n".data)
      = [List.replicate 1048570 'x', "\x7b\"a\":1\x7d".data] := by
    have h1 : splitOnNl ("\n\x7b\"a\":1\x7d\n".data)
        = [] :: ["\x7b\"a\":1\x7d".data, []] := by decide
    have h2 := splitOnNl_replicate 'x' (by decide) _ _ _ h1 1048570
    unfold splitlines
    rw [h2, List.append_nil]
    rfl
  have hsl : streamLines c1Bytes
      = some [List.replicate 1048570 'x', "\x7b\"a\":1\x7d".data] := by
    unfold streamLines
    rw [hdecode]
    show some (splitlines (List.replicate 1048570 'x' ++ "\n\x7b\"a\":1\x7d\n".data)) = _
    rw [hsplit]
  constructor
  · rw [hsl]
    show some (List.countP wellFormedLine
      [List.replicate 1048570 'x', "\x7b\"a\":1\x7d".data]) = some 1
    have hwf1 : wellFormedLine (List.replicate 1048570 'x') = false := by
      rw [wellFormedLine, hpx]
      rfl
    have hwf2 : wellFormedLine ("\x7b\"a\":1\x7d".data) = true := by decide
    rw [List.countP_cons, List.countP_cons, List.countP_nil, hwf1, hwf2]
    rfl
  · have hchunks : readChunks c1Bytes = [c1ChunkA, c1ChunkB] := by
      refine readChunks_two _ _ ?_ (by decide) (by decide)
      rw [show c1ChunkA = List.replicate 1048570 120 ++ asciiBytes "\n\x7b\"a\":".data from rfl,
        List.length_append, List.length_replicate]
      rfl
    have hdA : decodeUtf8 c1ChunkA
        = some (List.replicate 1048570 'x' ++ "\n\x7b\"a\":".data) := by
      rw [show c1ChunkA = List.replicate 1048570 120 ++ asciiBytes "\n\x7b\"a\":".data from rfl,
        decodeUtf8_replicate 1048570 120 (by omega) _,
        show decodeUtf8 (asciiBytes "\n\x7b\"a\":".data)
            = some ("\n\x7b\"a\":".data) from by decide, hx]
      rfl
    have hsplitA : splitlines (List.replicate 1048570 'x' ++ "\n\x7b\"a\":".data)
        = [List.replicate 1048570 'x', "\x7b\"a\":".data] := by
      have h1 : splitOnNl ("\n\x7b\"a\":".data) = [] :: ["\x7b\"a\":".data] := by decide
      have h2 := splitOnNl_replicate 'x' (by decide) _ _ _ h1 1048570
      unfold splitlines
      rw [h2, List.append_nil]
      rfl
    have hproc : processLines ([], 0) [List.replicate 1048570 'x', "\x7b\"a\":".data]
        = ([], 0) := by
      unfold processLines
      rw [List.foldl_cons, pushLine_none _ _ hpx, List.foldl_cons, List.foldl_nil]
      decide
    have hing : ingestChunks (readChunks c1Bytes) ([], 0) = .ok ([], 0) := by
      rw [hchunks, ingestChunks_cons_some _ _ _ _ hdA, hsplitA, hproc]
      decide
    unfold upload_tracee
    rw [hing, show (!extensionOk "trace.jsonl".data) = false from by decide]
    rfl
